import Mathlib

/-!
# Password strength scoring: a shallow embedding of `password_scoring.cpp`

The C++ namespace `pwcheck` is embedded function by function.

Modelling conventions.

* A `std::string` is a list of bytes (`Str`), a byte being a `Fin 256`.
* `int` is the 32-bit two's-complement integer.  Its values are integers
  (`Int`), and each arithmetic operation of `score_password` on a value that
  comes from the configuration leaves the representative of the exact result
  modulo `2^32` (`wrap32`), which is what the compiled program computes when a
  signed operation overflows; the language leaves that case undefined, and the
  bounds-checked embedding (`score_password_checked`) treats it as a failure.
* A password is taken to have fewer than 715,827,883 bytes, so that
  `(int)pw.size()` is its length and `n * 3` is exact.
* Whether plain `char` is signed is left to the platform by the language.  It is
  visible in `(int)s[i]`, so the embedding takes it as the parameter
  `char_signed`; every result below holds for both choices.
* The `<cctype>` classifiers are those of the "C" locale (plain ASCII ranges).
* `std::unordered_set<std::string>` is used only through `find`, that is through
  membership, and is embedded as a list of strings.
-/

namespace pwcheck

/-! ## Data model -/

/-- One `char` of a `std::string`, as its bit pattern. -/
abbrev Byte := Fin 256

/-- A `std::string`: its bytes, in order. -/
abbrev Str := List Byte

/-- The byte string of an ASCII literal of the source. -/
def bytes (s : String) : Str := s.toList.map (fun c => Fin.ofNat c.toNat)

/-- The value of `(int)c` for a plain `char c`: on a platform with signed `char`
the bit patterns from 128 on are the negative values. -/
def char_code (char_signed : Bool) (c : Byte) : Int :=
  if char_signed && decide (128 ≤ c.val) then (c.val : Int) - 256 else (c.val : Int)

/-- Category of a score (`enum class Bucket`). -/
inductive Bucket where
  | Weak
  | Fair
  | Strong
  | VeryStrong
deriving DecidableEq, Repr

/-- Scoring configuration (`struct ScoreConfig`). -/
structure ScoreConfig where
  min_length : Int
  max_length_allowed : Int
  length_cap_points : Int
  variety_points : Int
  pattern_points : Int
  passphrase_points : Int
  weak_max : Int
  fair_max : Int
  strong_max : Int
deriving DecidableEq, Repr

/-- The default member initialisers of `struct ScoreConfig`. -/
def default_config : ScoreConfig :=
  { min_length := 8
    max_length_allowed := 512
    length_cap_points := 60
    variety_points := 10
    pattern_points := 10
    passphrase_points := 10
    weak_max := 24
    fair_max := 59
    strong_max := 79 }

/-- Result of scoring (`struct ScoreDetail`). -/
structure ScoreDetail where
  score : Int
  bucket : Bucket
  reasons : List String
  blocklist_hit : Bool
  dictionary_hit : Bool
deriving DecidableEq, Repr

/-! ## Character classification (`<cctype>`, "C" locale) -/

/-- Library `std::islower`. -/
def islower (c : Byte) : Bool := decide (97 ≤ c.val) && decide (c.val ≤ 122)

/-- Library `std::isupper`. -/
def isupper (c : Byte) : Bool := decide (65 ≤ c.val) && decide (c.val ≤ 90)

/-- Library `std::isdigit`. -/
def isdigit (c : Byte) : Bool := decide (48 ≤ c.val) && decide (c.val ≤ 57)

/-- Library `std::isspace`: space, and the controls `\t \n \v \f \r`. -/
def isspace (c : Byte) : Bool :=
  decide (c.val = 32) || (decide (9 ≤ c.val) && decide (c.val ≤ 13))

/-- Library `std::tolower`. -/
def tolower (c : Byte) : Byte :=
  if isupper c then Fin.ofNat (c.val + 32) else c

/-- Source `to_lower`: `std::transform` of `std::tolower` over a copy. -/
def to_lower (s : Str) : Str := s.map tolower

/-- Source `is_ascii_print(char c)`: `c >= 32 && c <= 126` on the value of the
plain `char`. -/
def is_ascii_print (char_signed : Bool) (c : Byte) : Bool :=
  decide (32 ≤ char_code char_signed c) && decide (char_code char_signed c ≤ 126)

/-- The five locals `has_lower .. has_space` of `char_class_count`. -/
structure ClassFlags where
  has_lower : Bool
  has_upper : Bool
  has_digit : Bool
  has_symbol : Bool
  has_space : Bool
deriving DecidableEq, Repr

/-- One iteration of the loop of `char_class_count`: the `if / else if` chain. -/
def class_step (char_signed : Bool) (f : ClassFlags) (c : Byte) : ClassFlags :=
  if islower c then { f with has_lower := true }
  else if isupper c then { f with has_upper := true }
  else if isdigit c then { f with has_digit := true }
  else if isspace c then { f with has_space := true }
  else if is_ascii_print char_signed c then { f with has_symbol := true }
  else f

/-- Source `char_class_count`. -/
def char_class_count (char_signed : Bool) (s : Str) : Int :=
  let f := s.foldl (class_step char_signed) ⟨false, false, false, false, false⟩
  (if f.has_lower then 1 else 0) + (if f.has_upper then 1 else 0)
    + (if f.has_digit then 1 else 0) + (if f.has_symbol || f.has_space then 1 else 0)

/-! ## Bucket classifier -/

/-- Source `bucket_from_score`. -/
def bucket_from_score (score : Int) (cfg : ScoreConfig) : Bucket :=
  if score ≤ cfg.weak_max then Bucket.Weak
  else if score ≤ cfg.fair_max then Bucket.Fair
  else if score ≤ cfg.strong_max then Bucket.Strong
  else Bucket.VeryStrong

/-! ## Pattern detectors -/

/-- The inner loop of `looks_like_sequence` for one delta `d`, from index `i` on:
`prev` is `s[i - 1]`, `run` the current run length, the list the characters
`s[i], s[i + 1], ...` still to visit. -/
def seq_scan (char_signed : Bool) (d : Int) : Byte → Nat → Str → Bool
  | _, _, [] => false
  | prev, run, c :: rest =>
    if char_code char_signed c - char_code char_signed prev = d then
      if 4 ≤ run + 1 then true else seq_scan char_signed d c (run + 1) rest
    else seq_scan char_signed d c 1 rest

/-- Source `looks_like_sequence`: the scan is run for delta `1`, then `-1`. -/
def looks_like_sequence (char_signed : Bool) (s : Str) : Bool :=
  if s.length < 4 then false
  else
    match s with
    | [] => false
    | c0 :: rest => seq_scan char_signed 1 c0 1 rest || seq_scan char_signed (-1) c0 1 rest

/-- The test `s.compare(0, len, s, i, len) == 0`: the substrings
`s.substr(0, len)` and `s.substr(i, len)` are equal. -/
def compare_eq (s : Str) (len i : Nat) : Bool :=
  s.take len == (s.drop i).take len

/-- The inner loop `for (i = len; i < n; i += len)` of
`looks_like_repeated_chunk`, from `i` on; the result is the final value of `ok`.
The first argument bounds the number of iterations. -/
def chunk_loop (s : Str) (len : Nat) : Nat → Nat → Bool
  | 0, _ => false
  | fuel + 1, i =>
    if i < s.length then
      if compare_eq s len i then chunk_loop s len fuel (i + len) else false
    else true

/-- Source `looks_like_repeated_chunk`: `len` runs over `1, ..., n / 2`; the
first `len` that divides `n` and passes the inner loop returns `true`. -/
def looks_like_repeated_chunk (s : Str) : Bool :=
  (List.range' 1 (s.length / 2)).any
    (fun len => decide (s.length % len = 0) && chunk_loop s len s.length len)

/-- The keyboard rows, `rows` of `looks_like_keyboard_walk`. -/
def rows : List Str :=
  [bytes "qwertyuiop", bytes "asdfghjkl", bytes "zxcvbnm", bytes "1234567890"]

/-- Library `std::string::find(const std::string&)`: the first position at
which `needle` occurs in `hay`; `none` is `npos`. -/
def str_find : Str → Str → Option Nat
  | [], needle => if needle.isPrefixOf [] then some 0 else none
  | h :: t, needle =>
    if needle.isPrefixOf (h :: t) then some 0 else (str_find t needle).map (· + 1)

/-- Library `std::string::find(char)`: the first position of `c` in `hay`. -/
def chr_find : Str → Byte → Option Nat
  | [], _ => none
  | h :: t, c => if h = c then some 0 else (chr_find t c).map (· + 1)

/-- The inner loop of the second part of `looks_like_keyboard_walk` for the row
`r`: `run` is the current run length, the list the characters still to visit. -/
def row_scan (r : Str) : Nat → Str → Bool
  | _, [] => false
  | run, c :: rest =>
    if (chr_find r c).isSome then
      if 4 ≤ run + 1 then true else row_scan r (run + 1) rest
    else row_scan r 0 rest

/-- Source `looks_like_keyboard_walk`. -/
def looks_like_keyboard_walk (s : Str) : Bool :=
  let low := to_lower s
  rows.any (fun r => (str_find r low).isSome || (str_find r.reverse low).isSome)
    || rows.any (fun r => row_scan r 0 low)

/-- The value of `c - '0'`. -/
def digit_val (c : Byte) : Int := (c.val : Int) - 48

/-- Source `contains_year_suffix`: the list is `s` from index `i` on, and the
loop condition `i + 3 < s.size()` holds when four characters are left. -/
def contains_year_suffix : Str → Bool
  | a :: b :: c :: d :: rest =>
    if isdigit a && isdigit b && isdigit c && isdigit d then
      let y := digit_val a * 1000 + digit_val b * 100 + digit_val c * 10 + digit_val d
      if 1990 ≤ y ∧ y ≤ 2099 then true else contains_year_suffix (b :: c :: d :: rest)
    else contains_year_suffix (b :: c :: d :: rest)
  | _ => false

/-! ## Machine integers -/

/-- `INT_MIN` of the 32-bit `int`. -/
def int_min : Int := -2147483648

/-- `INT_MAX` of the 32-bit `int`. -/
def int_max : Int := 2147483647

/-- The `int` left by an operation whose exact result is `x`: the representative
of `x` modulo `2^32` between `INT_MIN` and `INT_MAX`. -/
def wrap32 (x : Int) : Int := (x + 2147483648) % 4294967296 - 2147483648

/-- The exact result `x` of an `int` operation fits an `int`. -/
def in_int (x : Int) : Bool := decide (int_min ≤ x) && decide (x ≤ int_max)

/-- The loop computing `wordish` in `score_password`. -/
def wordish (pw : Str) : Int :=
  pw.foldl (fun w c => if c.val = 32 ∨ c.val = 45 ∨ c.val = 95 then w + 1 else w) 1

/-- The closing tip of `score_password`. -/
def tip : String :=
  "Try 3–4 uncommon words, avoid years/keyboard runs, and steer clear of known common passwords."

/-- Source `score_password`.  Each `let` is one statement of the source; the
successive values of the locals `score` and `out.reasons` are numbered.
`(int)(x / 3.0)` rounds the exact quotient of the `int` `x` towards zero
(`Int.tdiv`).  The product of line 193 and the three updates of `score` (lines
193, 216, 224) are `int` operations on configuration values and wrap. -/
def score_password (char_signed : Bool) (password : Str) (blocklist dictionary : List Str)
    (cfg : ScoreConfig) : ScoreDetail :=
  let pw := password
  let low := to_lower pw
  let n : Int := pw.length
  if n = 0 then
    { score := 0, bucket := Bucket.Weak, reasons := ["Password is empty."],
      blocklist_hit := false, dictionary_hit := false }
  else
    let reasons0 : List String :=
      if n > cfg.max_length_allowed then ["Password exceeds maximum allowed length."] else []
    let blocklist_hit : Bool := decide (low ∈ blocklist)
    let reasons1 :=
      if blocklist_hit then reasons0 ++ ["Found in common-passwords list."] else reasons0
    let dictionary_hit : Bool := decide (low ∈ dictionary) && decide (n ≤ 10)
    let reasons2 :=
      if dictionary_hit then reasons1 ++ ["Is a common dictionary word."] else reasons1
    let score0 : Int := min cfg.length_cap_points (n * 3)
    let classes := char_class_count char_signed pw
    let score1 :=
      wrap32 (score0 + Int.tdiv (wrap32 (cfg.variety_points * max 0 (classes - 1))) 3)
    let seq := looks_like_sequence char_signed low
    let reasons3 :=
      if seq then reasons2 ++ ["Contains an increasing/decreasing sequence."] else reasons2
    let deductions1 : Int := if seq then 5 else 0
    let kbd := looks_like_keyboard_walk low
    let reasons4 := if kbd then reasons3 ++ ["Contains a keyboard pattern."] else reasons3
    let deductions2 := if kbd then deductions1 + 5 else deductions1
    let rep := looks_like_repeated_chunk low
    let reasons5 := if rep then reasons4 ++ ["Contains repeated chunks."] else reasons4
    let deductions3 := if rep then deductions2 + 5 else deductions2
    let year := contains_year_suffix pw
    let reasons6 := if year then reasons5 ++ ["Contains a year (predictable)."] else reasons5
    let pattern_deductions := if year then deductions3 + 3 else deductions3
    let score2 := wrap32 (score1 - min cfg.pattern_points pattern_deductions)
    let passphrase : Bool := decide (wordish pw ≥ 3) && decide (n ≥ 16)
    let score3 := if passphrase then wrap32 (score2 + cfg.passphrase_points) else score2
    let reasons7 :=
      if passphrase then reasons6 ++ ["Looks like a multi-word passphrase (good)."] else reasons6
    let short : Bool := decide (n < cfg.min_length)
    let reasons8 :=
      if short then reasons7 ++ ["Shorter than recommended minimum length."] else reasons7
    let score4 := if short then min score3 cfg.weak_max else score3
    let score5 := if blocklist_hit || dictionary_hit then min score4 10 else score4
    let score := max 0 (min 100 score5)
    let bucket := bucket_from_score score cfg
    let reasons9 :=
      if bucket = Bucket.Weak ∨ bucket = Bucket.Fair then reasons8 ++ [tip] else reasons8
    { score := score, bucket := bucket, reasons := reasons9,
      blocklist_hit := blocklist_hit, dictionary_hit := dictionary_hit }

/-! ## Bounds-checked embedding

The detectors once more, index by index as in the source: `s[i]` is `char_at`,
which is `none` outside the string, `%` is `none` for a zero divisor,
`std::string::compare` is `none` for a start position beyond the end, every
loop carries a bound on its number of iterations and is `none` when the bound is
used up, and an `int` operation is `none` when its exact result does not fit an
`int` (`checked_int`).  A result `some b` therefore says that every access was
within bounds, every loop ended and no signed operation overflowed. -/

/-- Some four consecutive elements of the list satisfy `p`. -/
def win4 {α : Type} (p : α → α → α → α → Bool) : List α → Bool
  | a :: b :: c :: d :: rest => p a b c d || win4 p (b :: c :: d :: rest)
  | _ => false

/-- The character codes of `a b c e` change by `d` at each of the three steps. -/
def steps_by (char_signed : Bool) (d : Int) (a b c e : Byte) : Bool :=
  decide (char_code char_signed b - char_code char_signed a = d)
    && decide (char_code char_signed c - char_code char_signed b = d)
    && decide (char_code char_signed e - char_code char_signed c = d)


/-- The test of `contains_year_suffix` on four characters: four digits, read as
a decimal number between 1990 and 2099. -/
def year4 (a b c d : Byte) : Bool :=
  isdigit a && isdigit b && isdigit c && isdigit d
    && decide (1990 ≤ digit_val a * 1000 + digit_val b * 100 + digit_val c * 10 + digit_val d
        ∧ digit_val a * 1000 + digit_val b * 100 + digit_val c * 10 + digit_val d ≤ 2099)


/-- The four characters `a b c d` are all members of the row `r`. -/
def in_row (r : Str) (a b c d : Byte) : Bool :=
  decide (a ∈ r) && decide (b ∈ r) && decide (c ∈ r) && decide (d ∈ r)

/-- Iverson bracket: 1 when the condition holds, else 0. -/
def ind (b : Bool) : Int := if b then 1 else 0

/-- The fourth character class: a whitespace character (`std::isspace`), or a
printable ASCII character (32 to 126) that is no letter and no digit. -/
def space_or_symbol (c : Byte) : Bool :=
  isspace c
    || (decide (32 ≤ c.val) && decide (c.val ≤ 126) && !islower c && !isupper c && !isdigit c)

/-- The number of separator characters `' '`, `'-'`, `'_'` of the password. -/
def separators (pw : Str) : Nat :=
  pw.countP (fun c => decide (c.val = 32 ∨ c.val = 45 ∨ c.val = 95))

/-- The uncapped pattern deduction: 5 for each of the sequence, keyboard-walk and
repeated-chunk detectors that fires on the lowercased password, 3 for the year
detector on the password itself. -/
def pattern_sum (char_signed : Bool) (pw : Str) : Int :=
  5 * ind (looks_like_sequence char_signed (to_lower pw))
    + 5 * ind (looks_like_keyboard_walk (to_lower pw))
    + 5 * ind (looks_like_repeated_chunk (to_lower pw))
    + 3 * ind (contains_year_suffix pw)

/-- The score as the specification computes it from the length `n`, the variety
bonus, the uncapped deduction `d`, and whether the passphrase bonus and the hit
override apply: `r0`, `r1`, `r2` and the final clamp. -/
def spec_score (cfg : ScoreConfig) (n bonus d : Int) (passphrase hit : Bool) : Int :=
  let r0 := min cfg.length_cap_points (3 * n) + bonus - min cfg.pattern_points d
    + (if passphrase then cfg.passphrase_points else 0)
  let r1 := if n < cfg.min_length then min r0 cfg.weak_max else r0
  let r2 := if hit then min r1 10 else r1
  max 0 (min 100 r2)

/-- The message `m` when the condition holds, nothing otherwise. -/
def msg_if (b : Bool) (m : String) : List String := if b then [m] else []

/-- The four characters `a b c d` are all decimal digits. -/
def all_digits (a b c d : Byte) : Bool :=
  isdigit a && isdigit b && isdigit c && isdigit d

/-- The default configuration with `variety_points` set to `-1`. -/
def negative_variety_config : ScoreConfig :=
  { default_config with variety_points := -1 }

/-- The default configuration with `variety_points` set to 1,000,000,000. -/
def large_variety_config : ScoreConfig :=
  { default_config with variety_points := 1000000000 }

/-- The passphrase test of `score_password`: separators + 1 ≥ 3 and length ≥ 16. -/
def is_passphrase (pw : Str) : Bool :=
  decide (3 ≤ separators pw + 1) && decide (16 ≤ pw.length)

/-- The exact product `variety_points * max(0, classes - 1)` of line 193. -/
def exact_product (char_signed : Bool) (pw : Str) (cfg : ScoreConfig) : Int :=
  cfg.variety_points * max 0 (char_class_count char_signed pw - 1)

/-- The exact value of `score` after the variety bonus is added (line 193). -/
def exact_score1 (char_signed : Bool) (pw : Str) (cfg : ScoreConfig) : Int :=
  min cfg.length_cap_points (3 * (pw.length : Int))
    + Int.tdiv (exact_product char_signed pw cfg) 3

/-- The exact value of `score` after the pattern deduction (line 216). -/
def exact_score2 (char_signed : Bool) (pw : Str) (cfg : ScoreConfig) : Int :=
  exact_score1 char_signed pw cfg - min cfg.pattern_points (pattern_sum char_signed pw)

/-- The exact value of `score` after the passphrase bonus (line 224). -/
def exact_score3 (char_signed : Bool) (pw : Str) (cfg : ScoreConfig) : Int :=
  exact_score2 char_signed pw cfg + (if is_passphrase pw then cfg.passphrase_points else 0)

/-- The product of line 193 and the three updates of `score` stay within `int`. -/
def sums_in_range (char_signed : Bool) (pw : Str) (cfg : ScoreConfig) : Bool :=
  in_int (exact_product char_signed pw cfg) && in_int (exact_score1 char_signed pw cfg)
    && in_int (exact_score2 char_signed pw cfg) && in_int (exact_score3 char_signed pw cfg)

/-- No `int` operation of `score_password` overflows: `n * 3`, the product of
line 193 and the three updates of `score` stay within `int`. -/
def no_overflow (char_signed : Bool) (pw : Str) (cfg : ScoreConfig) : Bool :=
  in_int (3 * (pw.length : Int)) && sums_in_range char_signed pw cfg

/-- The fourth character class in the words of the specification: a printable
ASCII character (32 to 126, the space included) that is no letter and no digit. -/
def printable_space_or_symbol (c : Byte) : Bool :=
  decide (32 ≤ c.val) && decide (c.val ≤ 126) && !islower c && !isupper c && !isdigit c

/-- The class count in the words of the specification: the number of the classes
lowercase letter, uppercase letter, digit and printable space-or-symbol that have
a character in `s`. -/
def spec_class_count (s : Str) : Int :=
  ind (s.any islower) + ind (s.any isupper) + ind (s.any isdigit)
    + ind (s.any printable_space_or_symbol)

/-! ## Shape of the result -/

theorem length_cast_ne_zero {pw : Str} (h : pw ≠ []) : ¬ ((pw.length : Int) = 0) := by
  intro h0
  exact h (List.length_eq_zero.mp (by exact_mod_cast h0))

/-- For a non-empty password: the two flags are the two membership tests, the
score is the clamped value left by the two guards, and the bucket is computed
from the score. -/
theorem score_password_shape (char_signed : Bool) (pw : Str) (blocklist dictionary : List Str)
    (cfg : ScoreConfig) (h : pw ≠ []) :
    ∃ s3 : Int,
      (score_password char_signed pw blocklist dictionary cfg).blocklist_hit
          = decide (to_lower pw ∈ blocklist)
      ∧ (score_password char_signed pw blocklist dictionary cfg).dictionary_hit
          = (decide (to_lower pw ∈ dictionary) && decide ((pw.length : Int) ≤ 10))
      ∧ (score_password char_signed pw blocklist dictionary cfg).score
          = max 0 (min 100
              (if (decide (to_lower pw ∈ blocklist)
                    || (decide (to_lower pw ∈ dictionary) && decide ((pw.length : Int) ≤ 10)))
               then min (if decide ((pw.length : Int) < cfg.min_length)
                          then min s3 cfg.weak_max else s3) 10
               else (if decide ((pw.length : Int) < cfg.min_length)
                      then min s3 cfg.weak_max else s3)))
      ∧ (score_password char_signed pw blocklist dictionary cfg).bucket
          = bucket_from_score (score_password char_signed pw blocklist dictionary cfg).score cfg := by
  have hn := length_cast_ne_zero h
  unfold score_password
  simp only [hn, if_false]
  exact ⟨_, trivial, trivial, rfl, trivial⟩

theorem bucket_weak_of_le {score : Int} {cfg : ScoreConfig} (h : score ≤ cfg.weak_max) :
    bucket_from_score score cfg = Bucket.Weak := by
  simp only [bucket_from_score, h, if_true]

theorem to_lower_length (s : Str) : (to_lower s).length = s.length := by
  simp only [to_lower, List.length_map]

/-! ## Claims about the score, the category and the flags -/

/-- C1: for every non-empty password, every blocklist, dictionary and
configuration, the score of `score_password` lies in `[0, 100]` and the category
is `bucket_from_score` of that score. -/
theorem C1_score_range_and_bucket (char_signed : Bool) (pw : Str) (blocklist dictionary : List Str)
    (cfg : ScoreConfig) (h : pw ≠ []) :
    0 ≤ (score_password char_signed pw blocklist dictionary cfg).score
      ∧ (score_password char_signed pw blocklist dictionary cfg).score ≤ 100
      ∧ (score_password char_signed pw blocklist dictionary cfg).bucket
          = bucket_from_score (score_password char_signed pw blocklist dictionary cfg).score cfg := by
  obtain ⟨s3, -, -, hs, hb⟩ := score_password_shape char_signed pw blocklist dictionary cfg h
  refine ⟨?_, ?_, hb⟩
  · rw [hs]; exact le_max_left _ _
  · rw [hs]; exact max_le (by norm_num) (min_le_left _ _)

/-- C2: the empty password gets score 0, category Weak, the single reason
"Password is empty." and no hit flag, whatever the blocklist, the dictionary and
the configuration are (also when they contain the empty string). -/
theorem C2_empty_password (char_signed : Bool) (blocklist dictionary : List Str)
    (cfg : ScoreConfig) :
    score_password char_signed [] blocklist dictionary cfg
      = { score := 0, bucket := Bucket.Weak, reasons := ["Password is empty."],
          blocklist_hit := false, dictionary_hit := false } := by
  simp [score_password]

/-- C3: under the default configuration, whose `min_length` is 8 and `weak_max`
is 24, a password shorter than 8 characters has score at most 24 and category
Weak, whatever its content, the blocklist and the dictionary. -/
theorem C3_short_password_is_weak (char_signed : Bool) (pw : Str) (blocklist dictionary : List Str)
    (h : pw.length < 8) :
    default_config.min_length = 8 ∧ default_config.weak_max = 24
      ∧ (score_password char_signed pw blocklist dictionary default_config).score ≤ 24
      ∧ (score_password char_signed pw blocklist dictionary default_config).bucket
          = Bucket.Weak := by
  have key : (score_password char_signed pw blocklist dictionary default_config).score ≤ 24
      ∧ (score_password char_signed pw blocklist dictionary default_config).bucket
          = bucket_from_score
              (score_password char_signed pw blocklist dictionary default_config).score
              default_config := by
    by_cases hpw : pw = []
    · subst hpw
      simp [score_password, bucket_from_score, default_config]
    · obtain ⟨s3, -, -, hs, hb⟩ :=
        score_password_shape char_signed pw blocklist dictionary default_config hpw
      refine ⟨?_, hb⟩
      have hshort : ((pw.length : Int) < default_config.min_length) := by
        show (pw.length : Int) < 8
        exact_mod_cast h
      have hw : default_config.weak_max = 24 := rfl
      rw [hs]
      simp only [hshort, decide_True, if_true, hw]
      refine max_le (by norm_num) (le_trans (min_le_right _ _) ?_)
      split
      · exact le_trans (min_le_left _ _) (min_le_right _ _)
      · exact min_le_right _ _
  exact ⟨rfl, rfl, key.1, key.2.trans (bucket_weak_of_le key.1)⟩

/-- C4: whenever `score_password` reports a blocklist hit or a dictionary hit
the score is at most 10; so "123456", with any blocklist that lists it, gets
under the default configuration a score of at most 10 and category Weak. -/
theorem C4_hit_caps_score :
    (∀ (char_signed : Bool) (pw : Str) (blocklist dictionary : List Str) (cfg : ScoreConfig),
        ((score_password char_signed pw blocklist dictionary cfg).blocklist_hit = true
          ∨ (score_password char_signed pw blocklist dictionary cfg).dictionary_hit = true) →
        (score_password char_signed pw blocklist dictionary cfg).score ≤ 10)
    ∧ (∀ (char_signed : Bool) (blocklist dictionary : List Str),
        bytes "123456" ∈ blocklist →
        (score_password char_signed (bytes "123456") blocklist dictionary default_config).score
            ≤ 10
          ∧ (score_password char_signed (bytes "123456") blocklist dictionary
                default_config).bucket = Bucket.Weak) := by
  have main : ∀ (char_signed : Bool) (pw : Str) (blocklist dictionary : List Str)
      (cfg : ScoreConfig),
      ((score_password char_signed pw blocklist dictionary cfg).blocklist_hit = true
        ∨ (score_password char_signed pw blocklist dictionary cfg).dictionary_hit = true) →
      (score_password char_signed pw blocklist dictionary cfg).score ≤ 10 := by
    intro char_signed pw blocklist dictionary cfg hhit
    by_cases hpw : pw = []
    · subst hpw
      simp [score_password]
    · obtain ⟨s3, hb, hd, hs, -⟩ :=
        score_password_shape char_signed pw blocklist dictionary cfg hpw
      rw [hb, hd] at hhit
      have hor : (decide (to_lower pw ∈ blocklist)
          || (decide (to_lower pw ∈ dictionary) && decide ((pw.length : Int) ≤ 10))) = true := by
        rcases hhit with h1 | h1 <;> simp only [h1, Bool.true_or, Bool.or_true]
      rw [hs, hor]
      simp only [if_true]
      exact max_le (by norm_num) (le_trans (min_le_right _ _) (min_le_right _ _))
  refine ⟨main, ?_⟩
  intro char_signed blocklist dictionary hmem
  have hne : bytes "123456" ≠ [] := by decide
  have hlow : to_lower (bytes "123456") = bytes "123456" := by decide
  obtain ⟨s3, hb, -, -, hbk⟩ :=
    score_password_shape char_signed (bytes "123456") blocklist dictionary default_config hne
  have hhit : (score_password char_signed (bytes "123456") blocklist dictionary
      default_config).blocklist_hit = true := by
    rw [hb, hlow]
    exact decide_eq_true hmem
  have hle := main char_signed (bytes "123456") blocklist dictionary default_config (Or.inl hhit)
  refine ⟨hle, hbk.trans (bucket_weak_of_le ?_)⟩
  exact le_trans hle (by decide)

/-- C5: for a non-empty password, `blocklist_hit` holds exactly when the
lowercased password is in the blocklist, and `dictionary_hit` exactly when the
lowercased password is in the dictionary and the length is at most 10; the two
flags do not depend on each other, a word longer than 10 characters is never a
dictionary hit, and a password whose lowercased form is listed is a hit whatever
its case. -/
theorem C5_hit_flags (char_signed : Bool) (pw : Str) (blocklist dictionary : List Str)
    (cfg : ScoreConfig) (h : pw ≠ []) :
    ((score_password char_signed pw blocklist dictionary cfg).blocklist_hit = true
        ↔ to_lower pw ∈ blocklist)
      ∧ ((score_password char_signed pw blocklist dictionary cfg).dictionary_hit = true
        ↔ (to_lower pw ∈ dictionary ∧ pw.length ≤ 10))
      ∧ (10 < pw.length →
          (score_password char_signed pw blocklist dictionary cfg).dictionary_hit = false)
      ∧ (∀ listed : Str, listed ∈ blocklist → to_lower pw = listed →
          (score_password char_signed pw blocklist dictionary cfg).blocklist_hit = true)
      ∧ (∀ listed : Str, listed ∈ dictionary → to_lower pw = listed → pw.length ≤ 10 →
          (score_password char_signed pw blocklist dictionary cfg).dictionary_hit = true) := by
  obtain ⟨s3, hb, hd, -, -⟩ := score_password_shape char_signed pw blocklist dictionary cfg h
  have h1 : (score_password char_signed pw blocklist dictionary cfg).blocklist_hit = true
      ↔ to_lower pw ∈ blocklist := by
    rw [hb]; exact decide_eq_true_iff
  have h2 : (score_password char_signed pw blocklist dictionary cfg).dictionary_hit = true
      ↔ (to_lower pw ∈ dictionary ∧ pw.length ≤ 10) := by
    rw [hd, Bool.and_eq_true, decide_eq_true_iff, decide_eq_true_iff]
    constructor
    · rintro ⟨ha, hl⟩
      exact ⟨ha, by exact_mod_cast hl⟩
    · rintro ⟨ha, hl⟩
      exact ⟨ha, by exact_mod_cast hl⟩
  refine ⟨h1, h2, ?_, ?_, ?_⟩
  · intro hlong
    cases hv : (score_password char_signed pw blocklist dictionary cfg).dictionary_hit with
    | false => rfl
    | true => exact absurd (h2.mp hv).2 (by omega)
  · intro listed hmem heq
    exact h1.mpr (heq ▸ hmem)
  · intro listed hmem heq hlen
    exact h2.mpr ⟨heq ▸ hmem, hlen⟩

/-- C6: with `weak_max < fair_max < strong_max`, `bucket_from_score` returns Weak
exactly for `s ≤ weak_max`, Fair exactly for `weak_max < s ≤ fair_max`, Strong
exactly for `fair_max < s ≤ strong_max` and VeryStrong exactly for
`s > strong_max`; each threshold maps to its own category and its successor to
the next one. -/
theorem C6_bucket_boundaries (cfg : ScoreConfig) (s : Int)
    (h1 : cfg.weak_max < cfg.fair_max) (h2 : cfg.fair_max < cfg.strong_max) :
    (bucket_from_score s cfg = Bucket.Weak ↔ s ≤ cfg.weak_max)
      ∧ (bucket_from_score s cfg = Bucket.Fair ↔ (cfg.weak_max < s ∧ s ≤ cfg.fair_max))
      ∧ (bucket_from_score s cfg = Bucket.Strong ↔ (cfg.fair_max < s ∧ s ≤ cfg.strong_max))
      ∧ (bucket_from_score s cfg = Bucket.VeryStrong ↔ cfg.strong_max < s)
      ∧ bucket_from_score cfg.weak_max cfg = Bucket.Weak
      ∧ bucket_from_score (cfg.weak_max + 1) cfg = Bucket.Fair
      ∧ bucket_from_score cfg.fair_max cfg = Bucket.Fair
      ∧ bucket_from_score (cfg.fair_max + 1) cfg = Bucket.Strong
      ∧ bucket_from_score cfg.strong_max cfg = Bucket.Strong
      ∧ bucket_from_score (cfg.strong_max + 1) cfg = Bucket.VeryStrong := by
  have gen : ∀ t : Int,
      (bucket_from_score t cfg = Bucket.Weak ↔ t ≤ cfg.weak_max)
      ∧ (bucket_from_score t cfg = Bucket.Fair ↔ (cfg.weak_max < t ∧ t ≤ cfg.fair_max))
      ∧ (bucket_from_score t cfg = Bucket.Strong ↔ (cfg.fair_max < t ∧ t ≤ cfg.strong_max))
      ∧ (bucket_from_score t cfg = Bucket.VeryStrong ↔ cfg.strong_max < t) := by
    intro t
    unfold bucket_from_score
    split_ifs with c1 c2 c3 <;> refine ⟨?_, ?_, ?_, ?_⟩ <;> constructor <;> intro hh <;>
      first
      | rfl
      | omega
      | exact absurd hh (by decide)
  refine ⟨(gen s).1, (gen s).2.1, (gen s).2.2.1, (gen s).2.2.2, ?_, ?_, ?_, ?_, ?_, ?_⟩
  · exact (gen _).1.mpr le_rfl
  · exact (gen _).2.1.mpr ⟨by omega, by omega⟩
  · exact (gen _).2.1.mpr ⟨by omega, le_rfl⟩
  · exact (gen _).2.2.1.mpr ⟨by omega, by omega⟩
  · exact (gen _).2.2.1.mpr ⟨by omega, le_rfl⟩
  · exact (gen _).2.2.2.mpr (by omega)

/-! ## Windows of four consecutive characters -/

theorem win4_short {α : Type} (p : α → α → α → α → Bool) (l : List α) (h : l.length < 4) :
    win4 p l = false := by
  match l, h with
  | [], _ => simp [win4]
  | [_], _ => simp [win4]
  | [_, _], _ => simp [win4]
  | [_, _, _], _ => simp [win4]
  | _ :: _ :: _ :: _ :: _, h => simp at h; omega

theorem win4_iff {α : Type} (p : α → α → α → α → Bool) (l : List α) :
    win4 p l = true ↔
      ∃ i, ∃ h : i + 3 < l.length, p l[i] l[i + 1] l[i + 2] l[i + 3] = true := by
  induction l with
  | nil => simp [win4]
  | cons a t ih =>
    by_cases hlen : (a :: t).length < 4
    · rw [win4_short p _ hlen]
      constructor
      · intro h; cases h
      · rintro ⟨i, h, -⟩; omega
    · match t, ih, hlen with
      | b :: c :: d :: rest, ih, _ =>
        rw [win4, Bool.or_eq_true, ih]
        constructor
        · rintro (h0 | ⟨i, h, hp⟩)
          · exact ⟨0, by simp, h0⟩
          · exact ⟨i + 1, by simp at h ⊢; omega, by simpa using hp⟩
        · rintro ⟨i, h, hp⟩
          cases i with
          | zero => exact Or.inl hp
          | succ j => exact Or.inr ⟨j, by simp at h ⊢; omega, by simpa using hp⟩
      | [], _, hlen => simp at hlen
      | [_], _, hlen => simp at hlen
      | [_, _], _, hlen => simp at hlen

/-! ## The sequence detector -/

theorem steps_break1 (cs : Bool) (d : Int) (p c : Byte) (rest : Str)
    (hb : ¬ char_code cs c - char_code cs p = d) :
    win4 (steps_by cs d) (p :: c :: rest) = win4 (steps_by cs d) (c :: rest) := by
  match rest with
  | [] => simp [win4]
  | [_] => simp [win4]
  | x :: y :: rest => rw [win4]; simp [steps_by, hb]

theorem steps_break2 (cs : Bool) (d : Int) (a p c : Byte) (rest : Str)
    (hb : ¬ char_code cs c - char_code cs p = d) :
    win4 (steps_by cs d) (a :: p :: c :: rest) = win4 (steps_by cs d) (c :: rest) := by
  match rest with
  | [] => simp [win4]
  | x :: rest =>
    rw [win4, steps_break1 cs d p c (x :: rest) hb]
    simp [steps_by, hb]

theorem steps_break3 (cs : Bool) (d : Int) (a b p c : Byte) (rest : Str)
    (hb : ¬ char_code cs c - char_code cs p = d) :
    win4 (steps_by cs d) (a :: b :: p :: c :: rest) = win4 (steps_by cs d) (c :: rest) := by
  rw [win4, steps_break2 cs d b p c rest hb]
  simp [steps_by, hb]

/-- The loop invariant of `seq_scan`: with a run of length 1, 2 or 3 ending at
`prev`, the scan finds exactly the windows of the run followed by the rest. -/
theorem seq_scan_win4 (cs : Bool) (d : Int) (rest : Str) :
    (∀ p, seq_scan cs d p 1 rest = win4 (steps_by cs d) (p :: rest))
    ∧ (∀ a p, char_code cs p - char_code cs a = d →
        seq_scan cs d p 2 rest = win4 (steps_by cs d) (a :: p :: rest))
    ∧ (∀ a b p, char_code cs b - char_code cs a = d → char_code cs p - char_code cs b = d →
        seq_scan cs d p 3 rest = win4 (steps_by cs d) (a :: b :: p :: rest)) := by
  induction rest with
  | nil => simp [seq_scan, win4]
  | cons c rest ih =>
    obtain ⟨ih1, ih2, ih3⟩ := ih
    refine ⟨?_, ?_, ?_⟩
    · intro p
      by_cases hd : char_code cs c - char_code cs p = d
      · simp only [seq_scan, hd, if_true]
        rw [if_neg (by omega)]
        exact ih2 p c hd
      · simp only [seq_scan, hd, if_false]
        rw [ih1 c, steps_break1 cs d p c rest hd]
    · intro a p hap
      by_cases hd : char_code cs c - char_code cs p = d
      · simp only [seq_scan, hd, if_true]
        rw [if_neg (by omega)]
        exact ih3 a p c hap hd
      · simp only [seq_scan, hd, if_false]
        rw [ih1 c, steps_break2 cs d a p c rest hd]
    · intro a b p hab hbp
      by_cases hd : char_code cs c - char_code cs p = d
      · simp only [seq_scan, hd, if_true]
        rw [if_pos (by omega), win4]
        simp [steps_by, hab, hbp, hd]
      · simp only [seq_scan, hd, if_false]
        rw [ih1 c, steps_break3 cs d a b p c rest hd]

theorem looks_like_sequence_eq (cs : Bool) (s : Str) :
    looks_like_sequence cs s = (win4 (steps_by cs 1) s || win4 (steps_by cs (-1)) s) := by
  unfold looks_like_sequence
  by_cases hlen : s.length < 4
  · rw [if_pos hlen, win4_short _ _ hlen, win4_short _ _ hlen]
    rfl
  · rw [if_neg hlen]
    match s, hlen with
    | [], hlen => simp at hlen
    | c0 :: rest, _ =>
      show (seq_scan cs 1 c0 1 rest || seq_scan cs (-1) c0 1 rest) = _
      rw [(seq_scan_win4 cs 1 rest).1 c0, (seq_scan_win4 cs (-1) rest).1 c0]

/-- C7: `looks_like_sequence s` holds exactly when at some index `i` with
`i + 3 < length s` the character codes of `s[i], s[i+1], s[i+2], s[i+3]` go up
by one at each step, or go down by one at each step; it is false for every
string shorter than four characters and true for "abcd", "4321", "123456" and
"abcdef". -/
theorem C7_looks_like_sequence_iff (char_signed : Bool) (s : Str) :
    (looks_like_sequence char_signed s = true ↔
      ∃ i, ∃ h : i + 3 < s.length,
        (char_code char_signed s[i + 1] - char_code char_signed s[i] = 1
          ∧ char_code char_signed s[i + 2] - char_code char_signed s[i + 1] = 1
          ∧ char_code char_signed s[i + 3] - char_code char_signed s[i + 2] = 1)
        ∨ (char_code char_signed s[i + 1] - char_code char_signed s[i] = -1
          ∧ char_code char_signed s[i + 2] - char_code char_signed s[i + 1] = -1
          ∧ char_code char_signed s[i + 3] - char_code char_signed s[i + 2] = -1))
    ∧ (s.length < 4 → looks_like_sequence char_signed s = false)
    ∧ looks_like_sequence char_signed (bytes "abcd") = true
    ∧ looks_like_sequence char_signed (bytes "4321") = true
    ∧ looks_like_sequence char_signed (bytes "123456") = true
    ∧ looks_like_sequence char_signed (bytes "abcdef") = true := by
  refine ⟨?_, ?_, ?_, ?_, ?_, ?_⟩
  · rw [looks_like_sequence_eq, Bool.or_eq_true, win4_iff, win4_iff]
    constructor
    · rintro (⟨i, h, hp⟩ | ⟨i, h, hp⟩)
      · refine ⟨i, h, Or.inl ?_⟩
        simpa [steps_by, and_assoc] using hp
      · refine ⟨i, h, Or.inr ?_⟩
        simpa [steps_by, and_assoc] using hp
    · rintro ⟨i, h, hp | hp⟩
      · refine Or.inl ⟨i, h, ?_⟩
        simpa [steps_by, and_assoc] using hp
      · refine Or.inr ⟨i, h, ?_⟩
        simpa [steps_by, and_assoc] using hp
  · intro hlen
    simp only [looks_like_sequence, hlen, if_true]
  · cases char_signed <;> decide
  · cases char_signed <;> decide
  · cases char_signed <;> decide
  · cases char_signed <;> decide

/-! ## The repeated-chunk detector -/

/-- The inner loop, started at `i` with enough iterations left, returns `true`
exactly when every chunk at `i, i + len, i + 2 len, ...` below the end equals
the first chunk. -/
theorem chunk_loop_iff (s : Str) (len : Nat) (hlen : 1 ≤ len) :
    ∀ fuel i, 1 ≤ fuel → s.length + 1 ≤ fuel + i →
      (chunk_loop s len fuel i = true ↔
        ∀ j, i + j * len < s.length → (s.drop (i + j * len)).take len = s.take len) := by
  intro fuel
  induction fuel with
  | zero => intro i h; omega
  | succ fuel ih =>
    intro i _ hfi
    unfold chunk_loop
    by_cases hi : i < s.length
    · rw [if_pos hi]
      by_cases hc : compare_eq s len i = true
      · rw [if_pos hc, ih (i + len) (by omega) (by omega)]
        have hc2 : (s.drop i).take len = s.take len := by
          have := hc
          simp only [compare_eq, beq_iff_eq] at this
          exact this.symm
        constructor
        · intro H j hj
          cases j with
          | zero => simpa using hc2
          | succ j =>
            have e : i + (j + 1) * len = i + len + j * len := by ring
            rw [e] at hj ⊢
            exact H j hj
        · intro H j hj
          have e : i + (j + 1) * len = i + len + j * len := by ring
          have := H (j + 1) (by rw [e]; exact hj)
          rw [e] at this
          exact this
      · rw [if_neg hc]
        constructor
        · intro h; cases h
        · intro H
          exfalso
          apply hc
          have := H 0 (by simpa using hi)
          simp only [compare_eq, beq_iff_eq]
          simpa using this.symm
    · rw [if_neg hi]
      constructor
      · intro _ j hj
        have : i ≤ i + j * len := Nat.le_add_right _ _
        omega
      · intro _; rfl

/-- A list of length `q * len` is `q` copies of `c` (of length `len`) exactly
when each of its `q` consecutive chunks of length `len` is `c`. -/
theorem tiling_iff {α : Type} (len : Nat) (c : List α) (hc : c.length = len) :
    ∀ (q : Nat) (t : List α), t.length = q * len →
      (t = (List.replicate q c).flatten ↔
        ∀ m, m < q → (t.drop (m * len)).take len = c) := by
  intro q
  induction q with
  | zero =>
    intro t ht
    have : t = [] := List.length_eq_zero.mp (by simpa using ht)
    subst this
    simp
  | succ q ih =>
    intro t ht
    have hdrop : (t.drop len).length = q * len := by
      rw [List.length_drop, ht, Nat.succ_mul, Nat.add_sub_cancel]
    rw [List.replicate_succ, List.flatten_cons]
    constructor
    · intro h m hm
      have h1 : t.take len = c := by
        rw [h]; exact List.take_left' hc
      have h2 : t.drop len = (List.replicate q c).flatten := by
        rw [h]; exact List.drop_left' hc
      cases m with
      | zero => simpa using h1
      | succ m =>
        have := (ih (t.drop len) hdrop).mp h2 m (by omega)
        rw [List.drop_drop] at this
        have e : (m + 1) * len = len + m * len := by ring
        rw [e]
        exact this
    · intro H
      have h1 : t.take len = c := by simpa using H 0 (by omega)
      have h2 : t.drop len = (List.replicate q c).flatten := by
        refine (ih (t.drop len) hdrop).mpr (fun m hm => ?_)
        have := H (m + 1) (by omega)
        have e : (m + 1) * len = len + m * len := by ring
        rw [e] at this
        rw [List.drop_drop]
        exact this
      calc t = t.take len ++ t.drop len := (List.take_append_drop len t).symm
        _ = c ++ (List.replicate q c).flatten := by rw [h1, h2]

/-- C8: `looks_like_repeated_chunk s`, for `s` of length `n`, holds exactly when
for some chunk length `len` with `1 ≤ len ≤ n / 2` that divides `n`, `s` is its
first `len` characters repeated `n / len` times; it is false for every string
shorter than two characters and true for "abcabcabcabcabc", "abcabc" and
"aaaaaa". -/
theorem C8_looks_like_repeated_chunk_iff (s : Str) :
    (looks_like_repeated_chunk s = true ↔
      ∃ len, 1 ≤ len ∧ len ≤ s.length / 2 ∧ len ∣ s.length
        ∧ s = (List.replicate (s.length / len) (s.take len)).flatten)
    ∧ (s.length < 2 → looks_like_repeated_chunk s = false)
    ∧ looks_like_repeated_chunk (bytes "abcabcabcabcabc") = true
    ∧ looks_like_repeated_chunk (bytes "abcabc") = true
    ∧ looks_like_repeated_chunk (bytes "aaaaaa") = true := by
  refine ⟨?_, ?_, by decide, by decide, by decide⟩
  · unfold looks_like_repeated_chunk
    simp only [List.any_eq_true, List.mem_range'_1, Bool.and_eq_true, decide_eq_true_eq]
    constructor
    · rintro ⟨len, ⟨h1, h2⟩, hmod, hloop⟩
      have hdvd : len ∣ s.length := Nat.dvd_of_mod_eq_zero hmod
      have hq : s.length = s.length / len * len := (Nat.div_mul_cancel hdvd).symm
      have hlen : len ≤ s.length := by omega
      refine ⟨len, h1, by omega, hdvd, ?_⟩
      rw [tiling_iff len (s.take len) (by rw [List.length_take]; omega) (s.length / len) s hq]
      have hall := (chunk_loop_iff s len h1 s.length len (by omega) (by omega)).mp hloop
      intro m hm
      cases m with
      | zero => simp
      | succ m =>
        have hlt : (m + 1) * len < s.length / len * len :=
          Nat.mul_lt_mul_of_pos_right hm (by omega)
        have e : (m + 1) * len = len + m * len := by ring
        rw [← hq, e] at hlt
        rw [e]
        exact hall m hlt
    · rintro ⟨len, h1, h2, hdvd, htile⟩
      have hq : s.length = s.length / len * len := (Nat.div_mul_cancel hdvd).symm
      have hlen : len ≤ s.length := by omega
      refine ⟨len, ⟨h1, by omega⟩, Nat.mod_eq_zero_of_dvd hdvd, ?_⟩
      rw [chunk_loop_iff s len h1 s.length len (by omega) (by omega)]
      have hall := (tiling_iff len (s.take len) (by rw [List.length_take]; omega)
        (s.length / len) s hq).mp htile
      intro j hj
      have e : (j + 1) * len = len + j * len := by ring
      have hlt : (j + 1) * len < s.length / len * len := by
        rw [← hq, e]; exact hj
      have hm : j + 1 < s.length / len := Nat.lt_of_mul_lt_mul_right hlt
      have := hall (j + 1) hm
      rw [e] at this
      exact this
  · intro hlen
    unfold looks_like_repeated_chunk
    have h0 : s.length / 2 = 0 := by omega
    rw [h0]
    rfl

/-! ## The keyboard-walk detector -/

theorem chr_find_isSome (r : Str) (c : Byte) : (chr_find r c).isSome = true ↔ c ∈ r := by
  induction r with
  | nil => simp [chr_find]
  | cons h t ih =>
    by_cases hc : h = c
    · simp [chr_find, hc]
    · have hc2 : ¬ c = h := fun e => hc e.symm
      simp [chr_find, hc, hc2, ih]

theorem str_find_isSome (hay needle : Str) :
    (str_find hay needle).isSome = true ↔ needle <:+: hay := by
  induction hay with
  | nil =>
    by_cases hp : needle.isPrefixOf [] = true
    · have hpre : needle <+: [] := List.isPrefixOf_iff_prefix.mp hp
      simp only [str_find, hp, if_true, Option.isSome_some, true_iff]
      exact hpre.isInfix
    · have hno : ¬ needle <:+: [] := by
        intro hin
        apply hp
        rw [List.infix_nil] at hin
        subst hin
        rfl
      simp only [str_find, hp, Bool.false_eq_true, if_false, Option.isSome_none, hno]
  | cons h t ih =>
    by_cases hp : needle.isPrefixOf (h :: t) = true
    · have hpre : needle <+: h :: t := List.isPrefixOf_iff_prefix.mp hp
      simp only [str_find, hp, if_true, Option.isSome_some, true_iff]
      exact hpre.isInfix
    · have hnp : ¬ needle <+: h :: t := fun hpre => hp (List.isPrefixOf_iff_prefix.mpr hpre)
      simp only [str_find, hp, Bool.false_eq_true, if_false, Option.isSome_map']
      rw [ih, List.infix_cons_iff]
      constructor
      · intro hin; exact Or.inr hin
      · rintro (hpre | hin)
        · exact absurd hpre hnp
        · exact hin

theorem in_row_break1 (r : Str) (c : Byte) (rest : Str) (hb : ¬ c ∈ r) :
    win4 (in_row r) (c :: rest) = win4 (in_row r) rest := by
  match rest with
  | [] => simp [win4]
  | [_] => simp [win4]
  | [_, _] => simp [win4]
  | x :: y :: z :: rest => rw [win4]; simp [in_row, hb]

theorem in_row_break2 (r : Str) (a c : Byte) (rest : Str) (hb : ¬ c ∈ r) :
    win4 (in_row r) (a :: c :: rest) = win4 (in_row r) rest := by
  match rest with
  | [] => simp [win4]
  | [_] => simp [win4]
  | x :: y :: rest =>
    rw [win4, in_row_break1 r c (x :: y :: rest) hb]
    simp [in_row, hb]

theorem in_row_break3 (r : Str) (a b c : Byte) (rest : Str) (hb : ¬ c ∈ r) :
    win4 (in_row r) (a :: b :: c :: rest) = win4 (in_row r) rest := by
  match rest with
  | [] => simp [win4]
  | x :: rest =>
    rw [win4, in_row_break2 r b c (x :: rest) hb]
    simp [in_row, hb]

theorem in_row_break4 (r : Str) (a b p c : Byte) (rest : Str) (hb : ¬ c ∈ r) :
    win4 (in_row r) (a :: b :: p :: c :: rest) = win4 (in_row r) rest := by
  rw [win4, in_row_break3 r b p c rest hb]
  simp [in_row, hb]

/-- The loop invariant of `row_scan`: with a run of 0, 1, 2 or 3 members of the
row just read, the scan finds exactly the windows of the run followed by the
rest. -/
theorem row_scan_win4 (r : Str) (rest : Str) :
    (row_scan r 0 rest = win4 (in_row r) rest)
    ∧ (∀ a, a ∈ r → row_scan r 1 rest = win4 (in_row r) (a :: rest))
    ∧ (∀ a b, a ∈ r → b ∈ r → row_scan r 2 rest = win4 (in_row r) (a :: b :: rest))
    ∧ (∀ a b p, a ∈ r → b ∈ r → p ∈ r →
        row_scan r 3 rest = win4 (in_row r) (a :: b :: p :: rest)) := by
  induction rest with
  | nil => simp [row_scan, win4]
  | cons c rest ih =>
    obtain ⟨ih0, ih1, ih2, ih3⟩ := ih
    by_cases hc : c ∈ r
    · have hf : (chr_find r c).isSome = true := (chr_find_isSome r c).mpr hc
      refine ⟨?_, ?_, ?_, ?_⟩
      · simp only [row_scan, hf, if_true]
        rw [if_neg (by omega)]
        exact ih1 c hc
      · intro a ha
        simp only [row_scan, hf, if_true]
        rw [if_neg (by omega)]
        exact ih2 a c ha hc
      · intro a b ha hb
        simp only [row_scan, hf, if_true]
        rw [if_neg (by omega)]
        exact ih3 a b c ha hb hc
      · intro a b p ha hb hp
        simp only [row_scan, hf, if_true]
        rw [if_pos (by omega), win4]
        simp [in_row, ha, hb, hp, hc]
    · have hf : ¬ (chr_find r c).isSome = true := fun h => hc ((chr_find_isSome r c).mp h)
      refine ⟨?_, ?_, ?_, ?_⟩
      · simp only [row_scan, hf, Bool.false_eq_true, if_false]
        rw [ih0, in_row_break1 r c rest hc]
      · intro a _
        simp only [row_scan, hf, Bool.false_eq_true, if_false]
        rw [ih0, in_row_break2 r a c rest hc]
      · intro a b _ _
        simp only [row_scan, hf, Bool.false_eq_true, if_false]
        rw [ih0, in_row_break3 r a b c rest hc]
      · intro a b p _ _ _
        simp only [row_scan, hf, Bool.false_eq_true, if_false]
        rw [ih0, in_row_break4 r a b p c rest hc]

/-- C9: with `low` the lowercased `s`, `looks_like_keyboard_walk s` holds exactly
when (a) `low` is a contiguous substring of one of the rows "qwertyuiop",
"asdfghjkl", "zxcvbnm", "1234567890" or of the reverse of one of them, or (b) for
one of these rows, four consecutive characters of `low` are all members of that
row; "qwerty" and "asdf" are true by (a). -/
theorem C9_looks_like_keyboard_walk_iff (s : Str) :
    (looks_like_keyboard_walk s = true ↔
      ((∃ r ∈ [bytes "qwertyuiop", bytes "asdfghjkl", bytes "zxcvbnm", bytes "1234567890"],
          to_lower s <:+: r ∨ to_lower s <:+: r.reverse)
        ∨ (∃ r ∈ [bytes "qwertyuiop", bytes "asdfghjkl", bytes "zxcvbnm", bytes "1234567890"],
            ∃ i, ∃ h : i + 3 < (to_lower s).length,
              (to_lower s)[i] ∈ r ∧ (to_lower s)[i + 1] ∈ r
                ∧ (to_lower s)[i + 2] ∈ r ∧ (to_lower s)[i + 3] ∈ r)))
    ∧ (looks_like_keyboard_walk (bytes "qwerty") = true
        ∧ to_lower (bytes "qwerty") <:+: bytes "qwertyuiop")
    ∧ (looks_like_keyboard_walk (bytes "asdf") = true
        ∧ to_lower (bytes "asdf") <:+: bytes "asdfghjkl") := by
  refine ⟨?_, ⟨by decide, ⟨[], bytes "uiop", by decide⟩⟩,
    ⟨by decide, ⟨[], bytes "ghjkl", by decide⟩⟩⟩
  have hrows : rows
      = [bytes "qwertyuiop", bytes "asdfghjkl", bytes "zxcvbnm", bytes "1234567890"] := rfl
  rw [← hrows]
  unfold looks_like_keyboard_walk
  simp only [Bool.or_eq_true, List.any_eq_true]
  constructor
  · rintro (⟨r, hr, hf⟩ | ⟨r, hr, hscan⟩)
    · left
      refine ⟨r, hr, ?_⟩
      rcases hf with hf | hf
      · exact Or.inl ((str_find_isSome _ _).mp hf)
      · exact Or.inr ((str_find_isSome _ _).mp hf)
    · right
      refine ⟨r, hr, ?_⟩
      rw [(row_scan_win4 r (to_lower s)).1, win4_iff] at hscan
      obtain ⟨i, h, hp⟩ := hscan
      refine ⟨i, h, ?_⟩
      simpa [in_row, and_assoc] using hp
  · rintro (⟨r, hr, hin⟩ | ⟨r, hr, i, h, hp⟩)
    · left
      refine ⟨r, hr, ?_⟩
      rcases hin with hin | hin
      · exact Or.inl ((str_find_isSome _ _).mpr hin)
      · exact Or.inr ((str_find_isSome _ _).mpr hin)
    · right
      refine ⟨r, hr, ?_⟩
      rw [(row_scan_win4 r (to_lower s)).1, win4_iff]
      refine ⟨i, h, ?_⟩
      simpa [in_row, and_assoc] using hp

/-! ## The year detector -/

theorem contains_year_suffix_eq : ∀ s : Str, contains_year_suffix s = win4 year4 s
  | [] => by simp [contains_year_suffix, win4]
  | [_] => by simp [contains_year_suffix, win4]
  | [_, _] => by simp [contains_year_suffix, win4]
  | [_, _, _] => by simp [contains_year_suffix, win4]
  | a :: b :: c :: d :: rest => by
    rw [contains_year_suffix, win4, contains_year_suffix_eq (b :: c :: d :: rest)]
    by_cases hy : year4 a b c d = true
    · have hy2 := hy
      simp only [year4, Bool.and_eq_true, decide_eq_true_eq] at hy2
      obtain ⟨⟨⟨⟨ha, hb⟩, hc⟩, hd⟩, hr⟩ := hy2
      simp [hy, ha, hb, hc, hd, hr]
    · have hy3 : year4 a b c d = false := by simpa using hy
      rw [hy3, Bool.false_or]
      by_cases hdig : (isdigit a && isdigit b && isdigit c && isdigit d) = true
      · rw [if_pos hdig]
        have hr : ¬ (1990 ≤ digit_val a * 1000 + digit_val b * 100 + digit_val c * 10
            + digit_val d
            ∧ digit_val a * 1000 + digit_val b * 100 + digit_val c * 10 + digit_val d
              ≤ 2099) := by
          intro hr
          apply hy
          simp only [year4, Bool.and_eq_true, decide_eq_true_eq]
          simp only [Bool.and_eq_true] at hdig
          exact ⟨hdig, hr⟩
        simp only [hr, if_false]
      · rw [if_neg hdig]

theorem year4_iff (a b c d : Byte) :
    year4 a b c d = true ↔
      ((48 ≤ a.val ∧ a.val ≤ 57) ∧ (48 ≤ b.val ∧ b.val ≤ 57)
        ∧ (48 ≤ c.val ∧ c.val ≤ 57) ∧ (48 ≤ d.val ∧ d.val ≤ 57)
        ∧ 1990 ≤ (a.val - 48) * 1000 + (b.val - 48) * 100 + (c.val - 48) * 10 + (d.val - 48)
        ∧ (a.val - 48) * 1000 + (b.val - 48) * 100 + (c.val - 48) * 10 + (d.val - 48)
            ≤ 2099) := by
  simp only [year4, isdigit, digit_val, Bool.and_eq_true, decide_eq_true_eq]
  constructor
  · rintro ⟨⟨⟨⟨ha, hb⟩, hc⟩, hd⟩, hr⟩
    refine ⟨ha, hb, hc, hd, ?_, ?_⟩ <;> omega
  · rintro ⟨ha, hb, hc, hd, h1, h2⟩
    refine ⟨⟨⟨⟨ha, hb⟩, hc⟩, hd⟩, ?_, ?_⟩ <;> omega

/-- C10: `contains_year_suffix s` holds exactly when at some index `i` with
`i + 3 < length s` the characters `s[i], s[i+1], s[i+2], s[i+3]` are four decimal
digits ('0' is 48, '9' is 57) whose decimal value lies in `[1990, 2099]`, at any
place of `s`; it is true for "2024" and "2025", false for "1989" and "2100". -/
theorem C10_contains_year_suffix_iff (s : Str) :
    (contains_year_suffix s = true ↔
      ∃ i, ∃ h : i + 3 < s.length,
        (48 ≤ s[i].val ∧ s[i].val ≤ 57) ∧ (48 ≤ s[i + 1].val ∧ s[i + 1].val ≤ 57)
        ∧ (48 ≤ s[i + 2].val ∧ s[i + 2].val ≤ 57) ∧ (48 ≤ s[i + 3].val ∧ s[i + 3].val ≤ 57)
        ∧ 1990 ≤ (s[i].val - 48) * 1000 + (s[i + 1].val - 48) * 100
                  + (s[i + 2].val - 48) * 10 + (s[i + 3].val - 48)
        ∧ (s[i].val - 48) * 1000 + (s[i + 1].val - 48) * 100
            + (s[i + 2].val - 48) * 10 + (s[i + 3].val - 48) ≤ 2099)
    ∧ contains_year_suffix (bytes "2024") = true
    ∧ contains_year_suffix (bytes "2025") = true
    ∧ contains_year_suffix (bytes "1989") = false
    ∧ contains_year_suffix (bytes "2100") = false
    ∧ contains_year_suffix (bytes "born1999!") = true := by
  refine ⟨?_, by decide, by decide, by decide, by decide, by decide⟩
  rw [contains_year_suffix_eq, win4_iff]
  constructor
  · rintro ⟨i, h, hp⟩
    exact ⟨i, h, (year4_iff _ _ _ _).mp hp⟩
  · rintro ⟨i, h, hp⟩
    exact ⟨i, h, (year4_iff _ _ _ _).mpr hp⟩

/-! ## The claims at concrete inputs -/

/-- The range and bucket property at the password "Tr0ub4dor&3", with empty sets and the
default configuration. -/
theorem C1_score_range_and_bucket_witness :
    bytes "Tr0ub4dor&3" ≠ []
      ∧ (0 ≤ (score_password true (bytes "Tr0ub4dor&3") [] [] default_config).score
        ∧ (score_password true (bytes "Tr0ub4dor&3") [] [] default_config).score ≤ 100
        ∧ (score_password true (bytes "Tr0ub4dor&3") [] [] default_config).bucket
            = bucket_from_score
                (score_password true (bytes "Tr0ub4dor&3") [] [] default_config).score
                default_config) :=
  ⟨by decide,
    C1_score_range_and_bucket true (bytes "Tr0ub4dor&3") [] [] default_config (by decide)⟩

/-- The short-password property at the seven-character password "aB3$xY!", which has all
four character classes. -/
theorem C3_short_password_is_weak_witness :
    (bytes "aB3$xY!").length < 8
      ∧ (default_config.min_length = 8 ∧ default_config.weak_max = 24
        ∧ (score_password true (bytes "aB3$xY!") [] [] default_config).score ≤ 24
        ∧ (score_password true (bytes "aB3$xY!") [] [] default_config).bucket = Bucket.Weak) :=
  ⟨by decide, C3_short_password_is_weak true (bytes "aB3$xY!") [] [] (by decide)⟩

/-- The hit cap at "Love" with the dictionary word "love": a dictionary hit, score at most
10. -/
theorem C4_hit_caps_score_witness :
    ((score_password true (bytes "Love") [] [bytes "love"] default_config).blocklist_hit = true
        ∨ (score_password true (bytes "Love") [] [bytes "love"] default_config).dictionary_hit
            = true)
      ∧ (score_password true (bytes "Love") [] [bytes "love"] default_config).score ≤ 10 :=
  ⟨Or.inr (by decide),
    C4_hit_caps_score.1 true (bytes "Love") [] [bytes "love"] default_config
      (Or.inr (by decide))⟩

/-- The flag characterisation at "PassWord" with the blocklist entry "password". -/
theorem C5_hit_flags_witness :
    bytes "PassWord" ≠ []
      ∧ (((score_password true (bytes "PassWord") [bytes "password"] [] default_config).blocklist_hit
            = true ↔ to_lower (bytes "PassWord") ∈ [bytes "password"])
        ∧ ((score_password true (bytes "PassWord") [bytes "password"] []
              default_config).dictionary_hit = true
            ↔ (to_lower (bytes "PassWord") ∈ ([] : List Str) ∧ (bytes "PassWord").length ≤ 10))
        ∧ (10 < (bytes "PassWord").length →
            (score_password true (bytes "PassWord") [bytes "password"] []
              default_config).dictionary_hit = false)
        ∧ (∀ listed : Str, listed ∈ [bytes "password"] → to_lower (bytes "PassWord") = listed →
            (score_password true (bytes "PassWord") [bytes "password"] []
              default_config).blocklist_hit = true)
        ∧ (∀ listed : Str, listed ∈ ([] : List Str) → to_lower (bytes "PassWord") = listed →
            (bytes "PassWord").length ≤ 10 →
            (score_password true (bytes "PassWord") [bytes "password"] []
              default_config).dictionary_hit = true)) :=
  ⟨by decide,
    C5_hit_flags true (bytes "PassWord") [bytes "password"] [] default_config (by decide)⟩

/-- The bucket boundaries at the default thresholds 24 < 59 < 79 and the score 59. -/
theorem C6_bucket_boundaries_witness :
    (default_config.weak_max < default_config.fair_max
        ∧ default_config.fair_max < default_config.strong_max)
      ∧ ((bucket_from_score 59 default_config = Bucket.Weak ↔ 59 ≤ default_config.weak_max)
        ∧ (bucket_from_score 59 default_config = Bucket.Fair
            ↔ (default_config.weak_max < 59 ∧ 59 ≤ default_config.fair_max))
        ∧ (bucket_from_score 59 default_config = Bucket.Strong
            ↔ (default_config.fair_max < 59 ∧ 59 ≤ default_config.strong_max))
        ∧ (bucket_from_score 59 default_config = Bucket.VeryStrong
            ↔ default_config.strong_max < 59)
        ∧ bucket_from_score default_config.weak_max default_config = Bucket.Weak
        ∧ bucket_from_score (default_config.weak_max + 1) default_config = Bucket.Fair
        ∧ bucket_from_score default_config.fair_max default_config = Bucket.Fair
        ∧ bucket_from_score (default_config.fair_max + 1) default_config = Bucket.Strong
        ∧ bucket_from_score default_config.strong_max default_config = Bucket.Strong
        ∧ bucket_from_score (default_config.strong_max + 1) default_config
            = Bucket.VeryStrong) :=
  ⟨⟨by decide, by decide⟩, C6_bucket_boundaries default_config 59 (by decide) (by decide)⟩

/-- The sequence detector at the three-character string "xyz": too short for a run. -/
theorem C7_looks_like_sequence_iff_witness :
    (bytes "xyz").length < 4 ∧ looks_like_sequence true (bytes "xyz") = false :=
  ⟨by decide, (C7_looks_like_sequence_iff true (bytes "xyz")).2.1 (by decide)⟩

/-- The repeated-chunk detector at the one-character string "a": too short to repeat. -/
theorem C8_looks_like_repeated_chunk_iff_witness :
    (bytes "a").length < 2 ∧ looks_like_repeated_chunk (bytes "a") = false :=
  ⟨by decide, (C8_looks_like_repeated_chunk_iff (bytes "a")).2.1 (by decide)⟩

/-! ## The character-class counter -/

/-- One loop iteration of `char_class_count`, flag by flag. -/
theorem class_step_flags (cs : Bool) (f : ClassFlags) (c : Byte) :
    (class_step cs f c).has_lower = (f.has_lower || islower c)
    ∧ (class_step cs f c).has_upper = (f.has_upper || isupper c)
    ∧ (class_step cs f c).has_digit = (f.has_digit || isdigit c)
    ∧ ((class_step cs f c).has_symbol || (class_step cs f c).has_space)
        = ((f.has_symbol || f.has_space) || space_or_symbol c) := by
  have hc := c.isLt
  have hprint : is_ascii_print cs c = (decide (32 ≤ c.val) && decide (c.val ≤ 126)) := by
    cases cs
    · simp [is_ascii_print, char_code]
    · by_cases h128 : 128 ≤ c.val
      · simp only [is_ascii_print, char_code, h128, decide_True, Bool.and_self, if_true]
        rw [Bool.eq_iff_iff]
        simp only [Bool.and_eq_true, decide_eq_true_eq]
        omega
      · simp [is_ascii_print, char_code, h128]
  by_cases h1 : islower c = true
  · have h2 : isupper c = false := by
      simp only [islower, isupper, Bool.and_eq_true, decide_eq_true_eq] at h1 ⊢
      rw [Bool.eq_false_iff]; simp only [ne_eq, Bool.and_eq_true, decide_eq_true_eq]; omega
    have h3 : isdigit c = false := by
      simp only [islower, isdigit, Bool.and_eq_true, decide_eq_true_eq] at h1 ⊢
      rw [Bool.eq_false_iff]; simp only [ne_eq, Bool.and_eq_true, decide_eq_true_eq]; omega
    have h4 : isspace c = false := by
      simp only [islower, isspace, Bool.and_eq_true, decide_eq_true_eq] at h1 ⊢
      rw [Bool.eq_false_iff]
      simp only [ne_eq, Bool.or_eq_true, Bool.and_eq_true, decide_eq_true_eq]; omega
    simp [class_step, space_or_symbol, h1, h2, h3, h4]
  · have h1f : islower c = false := by simpa using h1
    by_cases h2 : isupper c = true
    · have h3 : isdigit c = false := by
        simp only [isupper, isdigit, Bool.and_eq_true, decide_eq_true_eq] at h2 ⊢
        rw [Bool.eq_false_iff]; simp only [ne_eq, Bool.and_eq_true, decide_eq_true_eq]; omega
      have h4 : isspace c = false := by
        simp only [isupper, isspace, Bool.and_eq_true, decide_eq_true_eq] at h2 ⊢
        rw [Bool.eq_false_iff]
        simp only [ne_eq, Bool.or_eq_true, Bool.and_eq_true, decide_eq_true_eq]; omega
      simp [class_step, space_or_symbol, h1f, h2, h3, h4]
    · have h2f : isupper c = false := by simpa using h2
      by_cases h3 : isdigit c = true
      · have h4 : isspace c = false := by
          simp only [isdigit, isspace, Bool.and_eq_true, decide_eq_true_eq] at h3 ⊢
          rw [Bool.eq_false_iff]
          simp only [ne_eq, Bool.or_eq_true, Bool.and_eq_true, decide_eq_true_eq]; omega
        simp [class_step, space_or_symbol, h1f, h2f, h3, h4]
      · have h3f : isdigit c = false := by simpa using h3
        by_cases h4 : isspace c = true
        · simp [class_step, space_or_symbol, h1f, h2f, h3f, h4]
        · have h4f : isspace c = false := by simpa using h4
          by_cases h5 : is_ascii_print cs c = true
          · have h5b := h5
            rw [hprint] at h5b
            simp [class_step, space_or_symbol, h1f, h2f, h3f, h4f, h5, h5b]
          · have h5f : is_ascii_print cs c = false := by simpa using h5
            have h5b := h5f
            rw [hprint] at h5b
            simp [class_step, space_or_symbol, h1f, h2f, h3f, h4f, h5f, h5b]

/-- The flags at the end of the loop of `char_class_count`, started from `f`. -/
theorem class_fold_flags (cs : Bool) (s : Str) : ∀ f : ClassFlags,
    (s.foldl (class_step cs) f).has_lower = (f.has_lower || s.any islower)
    ∧ (s.foldl (class_step cs) f).has_upper = (f.has_upper || s.any isupper)
    ∧ (s.foldl (class_step cs) f).has_digit = (f.has_digit || s.any isdigit)
    ∧ ((s.foldl (class_step cs) f).has_symbol || (s.foldl (class_step cs) f).has_space)
        = ((f.has_symbol || f.has_space) || s.any space_or_symbol) := by
  induction s with
  | nil => intro f; simp
  | cons c rest ih =>
    intro f
    obtain ⟨a1, a2, a3, a4⟩ := class_step_flags cs f c
    obtain ⟨b1, b2, b3, b4⟩ := ih (class_step cs f c)
    simp only [List.foldl_cons, List.any_cons]
    refine ⟨?_, ?_, ?_, ?_⟩
    · rw [b1, a1, Bool.or_assoc]
    · rw [b2, a2, Bool.or_assoc]
    · rw [b3, a3, Bool.or_assoc]
    · rw [b4, a4, Bool.or_assoc]

/-- The count as a sum of four brackets, one per class. -/
theorem char_class_count_eq (cs : Bool) (s : Str) :
    char_class_count cs s
      = ind (s.any islower) + ind (s.any isupper) + ind (s.any isdigit)
          + ind (s.any space_or_symbol) := by
  obtain ⟨b1, b2, b3, b4⟩ := class_fold_flags cs s ⟨false, false, false, false, false⟩
  unfold char_class_count
  simp only [b1, b2, b3, b4, Bool.false_or, ind]

theorem ind_range (b : Bool) : 0 ≤ ind b ∧ ind b ≤ 1 := by
  cases b <;> simp [ind]

theorem char_class_count_range (cs : Bool) (s : Str) :
    0 ≤ char_class_count cs s ∧ char_class_count cs s ≤ 4 := by
  rw [char_class_count_eq]
  have h1 := ind_range (s.any islower)
  have h2 := ind_range (s.any isupper)
  have h3 := ind_range (s.any isdigit)
  have h4 := ind_range (s.any space_or_symbol)
  constructor <;> omega

/-- With the fourth class read as the specification words it (printable ASCII 32
to 126 that is no letter and no digit), the string made of one newline has no
character in any class, yet its class count is 1: `std::isspace` holds for the
newline. -/
theorem C16_newline_counts_for_a_class :
    char_class_count true [(10 : Byte)] = 1
      ∧ char_class_count false [(10 : Byte)] = 1
      ∧ spec_class_count [(10 : Byte)] = 0
      ∧ char_class_count true [(10 : Byte)] ≠ spec_class_count [(10 : Byte)] := by
  decide

theorem space_or_symbol_eq_printable (c : Byte) (h : ¬ (9 ≤ c.val ∧ c.val ≤ 13)) :
    space_or_symbol c = printable_space_or_symbol c := by
  rw [Bool.eq_iff_iff]
  simp only [space_or_symbol, printable_space_or_symbol, isspace, islower, isupper, isdigit,
    Bool.or_eq_true, Bool.and_eq_true, Bool.not_eq_true', decide_eq_true_eq,
    decide_eq_false_iff_not, Bool.and_eq_false_iff]
  omega

theorem any_space_or_symbol_eq (s : Str) (h : ∀ c ∈ s, ¬ (9 ≤ c.val ∧ c.val ≤ 13)) :
    s.any space_or_symbol = s.any printable_space_or_symbol := by
  induction s with
  | nil => rfl
  | cons c rest ih =>
    rw [List.any_cons, List.any_cons, space_or_symbol_eq_printable c (h c (List.mem_cons_self _ _)),
      ih (fun x hx => h x (List.mem_cons_of_mem _ hx))]

/-- C16, amended: `char_class_count s` is an integer in `[0, 4]`, the number of
classes among lowercase letter, uppercase letter, digit and space-or-symbol that
have a character in `s`, where the fourth class holds the whitespace characters
of `std::isspace` (the space and the controls 9 to 13: tab, newline, vertical
tab, form feed, carriage return) and the printable ASCII characters that are no
letter and no digit; for a string without the controls 9 to 13 that is the count
with the fourth class being the printable characters that are no letter and no
digit; the count of "abcABC123!@# " is 4 and that of the empty string is 0. -/
theorem C16_char_class_count (char_signed : Bool) (s : Str) :
    (0 ≤ char_class_count char_signed s ∧ char_class_count char_signed s ≤ 4)
    ∧ char_class_count char_signed s
        = ind (decide (∃ c ∈ s, 97 ≤ c.val ∧ c.val ≤ 122))
          + ind (decide (∃ c ∈ s, 65 ≤ c.val ∧ c.val ≤ 90))
          + ind (decide (∃ c ∈ s, 48 ≤ c.val ∧ c.val ≤ 57))
          + ind (decide (∃ c ∈ s, space_or_symbol c = true))
    ∧ ((∀ c ∈ s, ¬ (9 ≤ c.val ∧ c.val ≤ 13)) →
        char_class_count char_signed s = spec_class_count s)
    ∧ char_class_count char_signed (bytes "abcABC123!@# ") = 4
    ∧ char_class_count char_signed (bytes "abc 123") = char_class_count char_signed (bytes "abc!123")
    ∧ char_class_count char_signed (bytes "! ") = 1
    ∧ char_class_count char_signed [] = 0 := by
  refine ⟨char_class_count_range char_signed s, ?_, ?_, ?_, ?_, ?_, ?_⟩
  · rw [char_class_count_eq]
    have e1 : s.any islower = decide (∃ c ∈ s, 97 ≤ c.val ∧ c.val ≤ 122) := by
      rw [Bool.eq_iff_iff]
      simp [List.any_eq_true, islower]
    have e2 : s.any isupper = decide (∃ c ∈ s, 65 ≤ c.val ∧ c.val ≤ 90) := by
      rw [Bool.eq_iff_iff]
      simp [List.any_eq_true, isupper]
    have e3 : s.any isdigit = decide (∃ c ∈ s, 48 ≤ c.val ∧ c.val ≤ 57) := by
      rw [Bool.eq_iff_iff]
      simp [List.any_eq_true, isdigit]
    have e4 : s.any space_or_symbol = decide (∃ c ∈ s, space_or_symbol c = true) := by
      rw [Bool.eq_iff_iff]
      simp [List.any_eq_true]
    rw [e1, e2, e3, e4]
  · intro h
    rw [char_class_count_eq, any_space_or_symbol_eq s h]
    rfl
  · cases char_signed <;> decide
  · cases char_signed <;> decide
  · cases char_signed <;> decide
  · cases char_signed <;> decide

/-- The class count of "abcABC123!@# ", a string without the controls 9 to 13, in the
words of the specification. -/
theorem C16_char_class_count_witness :
    (∀ c ∈ bytes "abcABC123!@# ", ¬ (9 ≤ c.val ∧ c.val ≤ 13))
      ∧ char_class_count true (bytes "abcABC123!@# ") = spec_class_count (bytes "abcABC123!@# ") :=
  ⟨by set_option maxRecDepth 10000 in decide,
    (C16_char_class_count true (bytes "abcABC123!@# ")).2.2.1
      (by set_option maxRecDepth 10000 in decide)⟩

/-! ## The score formula -/

theorem wordish_fold (pw : Str) : ∀ w : Int,
    pw.foldl (fun w c => if c.val = 32 ∨ c.val = 45 ∨ c.val = 95 then w + 1 else w) w
      = w + separators pw := by
  induction pw with
  | nil => intro w; simp [separators]
  | cons c rest ih =>
    intro w
    rw [List.foldl_cons, ih]
    by_cases hc : c.val = 32 ∨ c.val = 45 ∨ c.val = 95
    · have : separators (c :: rest) = separators rest + 1 := by
        simp only [separators]
        rw [List.countP_cons_of_pos]
        simpa using hc
      rw [if_pos hc, this]
      push_cast
      ring
    · have : separators (c :: rest) = separators rest := by
        simp only [separators]
        rw [List.countP_cons_of_neg]
        simpa using hc
      rw [if_neg hc, this]

theorem wordish_eq (pw : Str) : wordish pw = 1 + separators pw :=
  wordish_fold pw 1

theorem wrap32_of_in_int {x : Int} (h : in_int x = true) : wrap32 x = x := by
  simp only [in_int, int_min, int_max, Bool.and_eq_true, decide_eq_true_eq] at h
  unfold wrap32
  omega

theorem passphrase_eq (pw : Str) :
    (decide (wordish pw ≥ 3) && decide ((pw.length : Int) ≥ 16)) = is_passphrase pw := by
  have hw : decide (wordish pw ≥ 3) = decide (3 ≤ separators pw + 1) := by
    rw [wordish_eq, Bool.eq_iff_iff]
    simp only [decide_eq_true_eq]
    omega
  have h16 : decide ((pw.length : Int) ≥ 16) = decide (16 ≤ pw.length) := by
    rw [Bool.eq_iff_iff]
    simp only [decide_eq_true_eq]
    omega
  rw [hw, h16]
  rfl

/-- The score of a non-empty password when the product of line 193 and the three
updates of `score` stay within `int`: the formula of the specification, with the
variety bonus as the source computes it (quotient rounded towards zero). -/
theorem score_password_score (cs : Bool) (pw : Str) (blocklist dictionary : List Str)
    (cfg : ScoreConfig) (h : pw ≠ []) (hr : sums_in_range cs pw cfg = true) :
    (score_password cs pw blocklist dictionary cfg).score
      = spec_score cfg pw.length
          (Int.tdiv (exact_product cs pw cfg) 3)
          (pattern_sum cs pw)
          (is_passphrase pw)
          (decide (to_lower pw ∈ blocklist)
            || (decide (to_lower pw ∈ dictionary) && decide (pw.length ≤ 10))) := by
  have hn := length_cast_ne_zero h
  have h10 : decide ((pw.length : Int) ≤ 10) = decide (pw.length ≤ 10) := by
    rw [Bool.eq_iff_iff]
    simp only [decide_eq_true_eq]
    omega
  simp only [sums_in_range, exact_score3, exact_score2, exact_score1, Bool.and_eq_true] at hr
  obtain ⟨⟨⟨hp, h1⟩, h2⟩, h3⟩ := hr
  rw [← h10]
  unfold score_password
  simp only [hn, if_false, passphrase_eq]
  unfold spec_score
  unfold pattern_sum at h2 h3 ⊢
  have e3 : (pw.length : Int) * 3 = 3 * pw.length := by ring
  rw [e3]
  generalize (decide (to_lower pw ∈ blocklist)
    || (decide (to_lower pw ∈ dictionary) && decide ((pw.length : Int) ≤ 10))) = b6
  generalize looks_like_sequence cs (to_lower pw) = b1 at h2 h3 ⊢
  generalize looks_like_keyboard_walk (to_lower pw) = b2 at h2 h3 ⊢
  generalize looks_like_repeated_chunk (to_lower pw) = b3 at h2 h3 ⊢
  generalize contains_year_suffix pw = b4 at h2 h3 ⊢
  generalize is_passphrase pw = b5 at h3 ⊢
  have hp2 : exact_product cs pw cfg
      = cfg.variety_points * max 0 (char_class_count cs pw - 1) := rfl
  rw [← hp2]
  generalize exact_product cs pw cfg = P at hp h1 h2 h3 ⊢
  generalize min cfg.length_cap_points (3 * (pw.length : Int)) = A at h1 h2 h3 ⊢
  rw [wrap32_of_in_int hp, wrap32_of_in_int h1]
  cases b1 <;> cases b2 <;> cases b3 <;> cases b4 <;> cases b5 <;> cases b6 <;>
    simp only [ind, Bool.false_eq_true, if_false, if_true, decide_eq_true_eq, mul_zero, mul_one,
      add_zero, zero_add, Int.reduceAdd, Int.reduceMul] at h2 h3 ⊢ <;>
    first
    | rw [wrap32_of_in_int h2, wrap32_of_in_int h3]
    | rw [wrap32_of_in_int h2]

theorem floor_div_three (x : Int) : ⌊((x : Int) : ℚ) / 3⌋ = x / 3 := by
  have h := Rat.floor_intCast_div_natCast x 3
  simpa using h

theorem tdiv_three_of_nonneg {x : Int} (hx : 0 ≤ x) : Int.tdiv x 3 = ⌊((x : Int) : ℚ) / 3⌋ := by
  rw [floor_div_three, Int.tdiv_eq_ediv hx (by decide)]

theorem tdiv_three_of_nonpos {x : Int} (hx : x ≤ 0) : Int.tdiv x 3 = ⌈((x : Int) : ℚ) / 3⌉ := by
  have h1 : Int.tdiv x 3 = -(Int.tdiv (-x) 3) := by
    rw [Int.neg_tdiv, neg_neg]
  have h2 : ⌈((x : Int) : ℚ) / 3⌉ = -⌊(((-x : Int)) : ℚ) / 3⌋ := by
    rw [← Int.ceil_neg]
    congr 1
    push_cast
    ring
  rw [h1, h2, tdiv_three_of_nonneg (by omega)]

/-- The formula with the floor fails where the product of line 193 overflows:
with `variety_points = 1000000000` and the password "aZbYcX1!" (four classes)
the `int` product wraps to a negative value and the score is 0, where the
formula gives 100. -/
theorem C11_overflowing_variety_points :
    (0 ≤ large_variety_config.variety_points ∧ bytes "aZbYcX1!" ≠ [])
      ∧ (score_password true (bytes "aZbYcX1!") [] [] large_variety_config).score = 0
      ∧ spec_score large_variety_config (bytes "aZbYcX1!").length
          ⌊((large_variety_config.variety_points
              * max 0 (char_class_count true (bytes "aZbYcX1!") - 1) : Int) : ℚ) / 3⌋
          (pattern_sum true (bytes "aZbYcX1!"))
          (decide (3 ≤ separators (bytes "aZbYcX1!") + 1)
            && decide (16 ≤ (bytes "aZbYcX1!").length))
          ((score_password true (bytes "aZbYcX1!") [] [] large_variety_config).blocklist_hit
            || (score_password true (bytes "aZbYcX1!") [] []
                  large_variety_config).dictionary_hit) = 100
      ∧ (score_password true (bytes "aZbYcX1!") [] [] large_variety_config).score
          ≠ spec_score large_variety_config (bytes "aZbYcX1!").length
              ⌊((large_variety_config.variety_points
                  * max 0 (char_class_count true (bytes "aZbYcX1!") - 1) : Int) : ℚ) / 3⌋
              (pattern_sum true (bytes "aZbYcX1!"))
              (decide (3 ≤ separators (bytes "aZbYcX1!") + 1)
                && decide (16 ≤ (bytes "aZbYcX1!").length))
              ((score_password true (bytes "aZbYcX1!") [] [] large_variety_config).blocklist_hit
                || (score_password true (bytes "aZbYcX1!") [] []
                      large_variety_config).dictionary_hit)
      ∧ no_overflow true (bytes "aZbYcX1!") large_variety_config = false := by
  rw [floor_div_three]
  decide

/-- C11, amended: for a configuration with `variety_points ≥ 0` and a non-empty
password of length `n` with class count `c`, uncapped deduction `d` (5 for each
of the sequence, keyboard-walk and repeated-chunk detectors firing on the
lowercased password, 3 for the year detector on the password) and passphrase
bonus `b` (granted when separators + 1 ≥ 3 and `n ≥ 16`), provided no `int`
operation of the computation overflows (`3 n`, `variety_points * max 0 (c - 1)`
and the score after each of its three updates lie within `int`), the score is
`max 0 (min 100 r2)` where
`r0 = min length_cap_points (3 n) + ⌊variety_points * max 0 (c - 1) / 3⌋
      - min pattern_points d + b`,
`r1 = min r0 weak_max` if `n < min_length`, else `r0`, and `r2 = min r1 10` on
a blocklist or dictionary hit, else `r1`. -/
theorem C11_score_formula (char_signed : Bool) (pw : Str) (blocklist dictionary : List Str)
    (cfg : ScoreConfig) (hv : 0 ≤ cfg.variety_points) (h : pw ≠ [])
    (hr : no_overflow char_signed pw cfg = true) :
    (score_password char_signed pw blocklist dictionary cfg).score
      = spec_score cfg pw.length
          ⌊((cfg.variety_points * max 0 (char_class_count char_signed pw - 1) : Int) : ℚ) / 3⌋
          (pattern_sum char_signed pw)
          (decide (3 ≤ separators pw + 1) && decide (16 ≤ pw.length))
          ((score_password char_signed pw blocklist dictionary cfg).blocklist_hit
            || (score_password char_signed pw blocklist dictionary cfg).dictionary_hit) := by
  obtain ⟨s3, hb, hd, -, -⟩ := score_password_shape char_signed pw blocklist dictionary cfg h
  have h10 : decide ((pw.length : Int) ≤ 10) = decide (pw.length ≤ 10) := by
    rw [Bool.eq_iff_iff]
    simp only [decide_eq_true_eq]
    omega
  have hsum : sums_in_range char_signed pw cfg = true := by
    simp only [no_overflow, Bool.and_eq_true] at hr
    exact hr.2
  rw [hb, hd, h10, score_password_score char_signed pw blocklist dictionary cfg h hsum,
    ← tdiv_three_of_nonneg (mul_nonneg hv (le_max_left _ _))]
  rfl

/-! ## The reasons -/

theorem ite_append_msg (b : Bool) (l : List String) (m : String) :
    (if b = true then l ++ [m] else l) = l ++ msg_if b m := by
  cases b <;> simp [msg_if]

theorem ite_prop_append_msg (p : Prop) [Decidable p] (l : List String) (m : String) :
    (if p then l ++ [m] else l) = l ++ msg_if (decide p) m := by
  by_cases hp : p <;> simp [msg_if, hp]

theorem ite_prop_msg (p : Prop) [Decidable p] (m : String) :
    (if p then [m] else []) = msg_if (decide p) m := by
  by_cases hp : p <;> simp [msg_if, hp]

theorem mem_msg_if (x : String) (b : Bool) (m : String) :
    x ∈ msg_if b m ↔ (b = true ∧ x = m) := by
  cases b <;> simp [msg_if]

/-- The reasons of a non-empty password: one optional message per test, in the
order of the tests. -/
theorem score_password_reasons (cs : Bool) (pw : Str) (blocklist dictionary : List Str)
    (cfg : ScoreConfig) (h : pw ≠ []) :
    (score_password cs pw blocklist dictionary cfg).reasons
      = msg_if (decide ((pw.length : Int) > cfg.max_length_allowed))
            "Password exceeds maximum allowed length."
          ++ msg_if (decide (to_lower pw ∈ blocklist)) "Found in common-passwords list."
          ++ msg_if (decide (to_lower pw ∈ dictionary) && decide ((pw.length : Int) ≤ 10))
              "Is a common dictionary word."
          ++ msg_if (looks_like_sequence cs (to_lower pw))
              "Contains an increasing/decreasing sequence."
          ++ msg_if (looks_like_keyboard_walk (to_lower pw)) "Contains a keyboard pattern."
          ++ msg_if (looks_like_repeated_chunk (to_lower pw)) "Contains repeated chunks."
          ++ msg_if (contains_year_suffix pw) "Contains a year (predictable)."
          ++ msg_if (decide (wordish pw ≥ 3) && decide ((pw.length : Int) ≥ 16))
              "Looks like a multi-word passphrase (good)."
          ++ msg_if (decide ((pw.length : Int) < cfg.min_length))
              "Shorter than recommended minimum length."
          ++ msg_if (decide ((score_password cs pw blocklist dictionary cfg).bucket = Bucket.Weak
                ∨ (score_password cs pw blocklist dictionary cfg).bucket = Bucket.Fair)) tip := by
  have hn := length_cast_ne_zero h
  unfold score_password
  simp only [hn, if_false, ite_prop_append_msg, ite_prop_msg, Bool.decide_eq_true]

theorem tip_not_among_tests (cs : Bool) (pw : Str) (blocklist dictionary : List Str)
    (cfg : ScoreConfig) :
    tip ∉ msg_if (decide ((pw.length : Int) > cfg.max_length_allowed))
            "Password exceeds maximum allowed length."
          ++ msg_if (decide (to_lower pw ∈ blocklist)) "Found in common-passwords list."
          ++ msg_if (decide (to_lower pw ∈ dictionary) && decide ((pw.length : Int) ≤ 10))
              "Is a common dictionary word."
          ++ msg_if (looks_like_sequence cs (to_lower pw))
              "Contains an increasing/decreasing sequence."
          ++ msg_if (looks_like_keyboard_walk (to_lower pw)) "Contains a keyboard pattern."
          ++ msg_if (looks_like_repeated_chunk (to_lower pw)) "Contains repeated chunks."
          ++ msg_if (contains_year_suffix pw) "Contains a year (predictable)."
          ++ msg_if (decide (wordish pw ≥ 3) && decide ((pw.length : Int) ≥ 16))
              "Looks like a multi-word passphrase (good)."
          ++ msg_if (decide ((pw.length : Int) < cfg.min_length))
              "Shorter than recommended minimum length." := by
  intro hmem
  simp only [List.mem_append, mem_msg_if] at hmem
  have t1 : tip ≠ "Password exceeds maximum allowed length." := by decide
  have t2 : tip ≠ "Found in common-passwords list." := by decide
  have t3 : tip ≠ "Is a common dictionary word." := by decide
  have t4 : tip ≠ "Contains an increasing/decreasing sequence." := by decide
  have t5 : tip ≠ "Contains a keyboard pattern." := by decide
  have t6 : tip ≠ "Contains repeated chunks." := by decide
  have t7 : tip ≠ "Contains a year (predictable)." := by decide
  have t8 : tip ≠ "Looks like a multi-word passphrase (good)." := by decide
  have t9 : tip ≠ "Shorter than recommended minimum length." := by decide
  rcases hmem with ((((((((⟨-, e⟩ | ⟨-, e⟩) | ⟨-, e⟩) | ⟨-, e⟩) | ⟨-, e⟩) | ⟨-, e⟩) | ⟨-, e⟩)
    | ⟨-, e⟩) | ⟨-, e⟩)
  · exact t1 e
  · exact t2 e
  · exact t3 e
  · exact t4 e
  · exact t5 e
  · exact t6 e
  · exact t7 e
  · exact t8 e
  · exact t9 e

/-- C12: the reasons of a non-empty password are, in this order, the messages
whose condition holds: over the maximum length, blocklist hit, dictionary hit,
sequence, keyboard pattern, repeated chunks (the three on the lowercased
password), year (on the password itself), passphrase (separators + 1 ≥ 3 and
length ≥ 16), shorter than the minimum length, and last the tip when the
category is Weak or Fair; the tip is the last entry exactly when the category is
Weak or Fair and does not occur for Strong and VeryStrong. -/
theorem C12_reasons_in_order (char_signed : Bool) (pw : Str) (blocklist dictionary : List Str)
    (cfg : ScoreConfig) (h : pw ≠ []) :
    (score_password char_signed pw blocklist dictionary cfg).reasons
      = msg_if (decide (cfg.max_length_allowed < (pw.length : Int)))
            "Password exceeds maximum allowed length."
          ++ msg_if (score_password char_signed pw blocklist dictionary cfg).blocklist_hit
              "Found in common-passwords list."
          ++ msg_if (score_password char_signed pw blocklist dictionary cfg).dictionary_hit
              "Is a common dictionary word."
          ++ msg_if (looks_like_sequence char_signed (to_lower pw))
              "Contains an increasing/decreasing sequence."
          ++ msg_if (looks_like_keyboard_walk (to_lower pw)) "Contains a keyboard pattern."
          ++ msg_if (looks_like_repeated_chunk (to_lower pw)) "Contains repeated chunks."
          ++ msg_if (contains_year_suffix pw) "Contains a year (predictable)."
          ++ msg_if (decide (3 ≤ separators pw + 1) && decide (16 ≤ pw.length))
              "Looks like a multi-word passphrase (good)."
          ++ msg_if (decide ((pw.length : Int) < cfg.min_length))
              "Shorter than recommended minimum length."
          ++ msg_if
              (decide ((score_password char_signed pw blocklist dictionary cfg).bucket = Bucket.Weak
                ∨ (score_password char_signed pw blocklist dictionary cfg).bucket = Bucket.Fair))
              "Try 3–4 uncommon words, avoid years/keyboard runs, and steer clear of known common passwords."
    ∧ ((score_password char_signed pw blocklist dictionary cfg).reasons.getLast?
          = some "Try 3–4 uncommon words, avoid years/keyboard runs, and steer clear of known common passwords."
        ↔ ((score_password char_signed pw blocklist dictionary cfg).bucket = Bucket.Weak
            ∨ (score_password char_signed pw blocklist dictionary cfg).bucket = Bucket.Fair))
    ∧ (((score_password char_signed pw blocklist dictionary cfg).bucket = Bucket.Strong
          ∨ (score_password char_signed pw blocklist dictionary cfg).bucket = Bucket.VeryStrong) →
        "Try 3–4 uncommon words, avoid years/keyboard runs, and steer clear of known common passwords."
          ∉ (score_password char_signed pw blocklist dictionary cfg).reasons) := by
  have htip : "Try 3–4 uncommon words, avoid years/keyboard runs, and steer clear of known common passwords."
      = tip := rfl
  rw [htip]
  obtain ⟨s3, hb, hd, -, -⟩ := score_password_shape char_signed pw blocklist dictionary cfg h
  have hw : decide (wordish pw ≥ 3) = decide (3 ≤ separators pw + 1) := by
    rw [wordish_eq, Bool.eq_iff_iff]
    simp only [decide_eq_true_eq]
    omega
  have h16 : decide ((pw.length : Int) ≥ 16) = decide (16 ≤ pw.length) := by
    rw [Bool.eq_iff_iff]
    simp only [decide_eq_true_eq]
    omega
  have hr := score_password_reasons char_signed pw blocklist dictionary cfg h
  have hnot := tip_not_among_tests char_signed pw blocklist dictionary cfg
  refine ⟨?_, ?_, ?_⟩
  · rw [hb, hd, ← hw, ← h16]
    exact hr
  · rw [hr]
    by_cases hc : (score_password char_signed pw blocklist dictionary cfg).bucket = Bucket.Weak
        ∨ (score_password char_signed pw blocklist dictionary cfg).bucket = Bucket.Fair
    · simp only [hc, decide_True, msg_if, if_true, iff_true]
      exact List.getLast?_concat _
    · simp only [hc, decide_False, msg_if, Bool.false_eq_true, if_false, List.append_nil,
        iff_false]
      intro hlast
      exact hnot (List.mem_of_getLast?_eq_some hlast)
  · intro hs
    have hc : ¬ ((score_password char_signed pw blocklist dictionary cfg).bucket = Bucket.Weak
        ∨ (score_password char_signed pw blocklist dictionary cfg).bucket = Bucket.Fair) := by
      rcases hs with hs | hs <;> rw [hs] <;> decide
    rw [hr]
    simp only [hc, decide_False, msg_if, Bool.false_eq_true, if_false, List.append_nil]
    exact hnot

/-! ## Dependence on the blocklist and the dictionary -/

/-- The result depends on the two sets only through the two membership tests of
the lowercased password. -/
theorem score_password_congr (cs : Bool) (pw : Str) (bl1 bl2 dict1 dict2 : List Str)
    (cfg : ScoreConfig)
    (hb : to_lower pw ∈ bl1 ↔ to_lower pw ∈ bl2)
    (hd : to_lower pw ∈ dict1 ↔ to_lower pw ∈ dict2) :
    score_password cs pw bl1 dict1 cfg = score_password cs pw bl2 dict2 cfg := by
  have e1 : decide (to_lower pw ∈ bl1) = decide (to_lower pw ∈ bl2) := by
    rw [Bool.eq_iff_iff]
    simpa using hb
  have e2 : decide (to_lower pw ∈ dict1) = decide (to_lower pw ∈ dict2) := by
    rw [Bool.eq_iff_iff]
    simpa using hd
  unfold score_password
  simp only [e1, e2]

/-- C15: `score_password` is a function of its inputs, and it depends on the
blocklist and on the dictionary only through membership of the lowercased
password: two calls on the same password and configuration whose blocklists
agree on containing the lowercased password, and whose dictionaries agree
likewise, return the same `ScoreDetail`; two calls with identical inputs return
identical results. -/
theorem C15_depends_on_membership_only (char_signed : Bool) (pw : Str)
    (bl1 bl2 dict1 dict2 : List Str) (cfg : ScoreConfig)
    (hb : to_lower pw ∈ bl1 ↔ to_lower pw ∈ bl2)
    (hd : to_lower pw ∈ dict1 ↔ to_lower pw ∈ dict2) :
    score_password char_signed pw bl1 dict1 cfg = score_password char_signed pw bl2 dict2 cfg
    ∧ (score_password char_signed pw bl1 dict1 cfg).score
        = (score_password char_signed pw bl2 dict2 cfg).score
    ∧ (score_password char_signed pw bl1 dict1 cfg).bucket
        = (score_password char_signed pw bl2 dict2 cfg).bucket
    ∧ (score_password char_signed pw bl1 dict1 cfg).reasons
        = (score_password char_signed pw bl2 dict2 cfg).reasons
    ∧ (score_password char_signed pw bl1 dict1 cfg).blocklist_hit
        = (score_password char_signed pw bl2 dict2 cfg).blocklist_hit
    ∧ (score_password char_signed pw bl1 dict1 cfg).dictionary_hit
        = (score_password char_signed pw bl2 dict2 cfg).dictionary_hit
    ∧ (∀ (c1 c2 : Bool) (p1 p2 : Str) (b1 b2 d1 d2 : List Str) (g1 g2 : ScoreConfig),
        c1 = c2 → p1 = p2 → b1 = b2 → d1 = d2 → g1 = g2 →
        score_password c1 p1 b1 d1 g1 = score_password c2 p2 b2 d2 g2) := by
  have e := score_password_congr char_signed pw bl1 bl2 dict1 dict2 cfg hb hd
  refine ⟨e, by rw [e], by rw [e], by rw [e], by rw [e], by rw [e], ?_⟩
  intro c1 c2 p1 p2 b1 b2 d1 d2 g1 g2 h1 h2 h3 h4 h5
  rw [h1, h2, h3, h4, h5]

/-! ## A passphrase with a year -/

/-- C14: with the default configuration and sets that do not contain
"mytree-dog-love-jump2044", "MyTree-Dog-Love-Jump2044" gets both the year
penalty and the passphrase bonus: the reasons are the keyboard-pattern reason,
the year reason and then the passphrase reason, the class count is 4, the
deduction is 8, and the score is 60 + 10 - 8 + 10 = 72, category Strong. -/
theorem C14_passphrase_with_year (char_signed : Bool) (blocklist dictionary : List Str)
    (hb : bytes "mytree-dog-love-jump2044" ∉ blocklist)
    (hd : bytes "mytree-dog-love-jump2044" ∉ dictionary) :
    score_password char_signed (bytes "MyTree-Dog-Love-Jump2044") blocklist dictionary
        default_config
      = { score := 72, bucket := Bucket.Strong,
          reasons := ["Contains a keyboard pattern.", "Contains a year (predictable).",
            "Looks like a multi-word passphrase (good)."],
          blocklist_hit := false, dictionary_hit := false }
    ∧ "Contains a year (predictable)."
        ∈ (score_password char_signed (bytes "MyTree-Dog-Love-Jump2044") blocklist dictionary
            default_config).reasons
    ∧ "Looks like a multi-word passphrase (good)."
        ∈ (score_password char_signed (bytes "MyTree-Dog-Love-Jump2044") blocklist dictionary
            default_config).reasons
    ∧ min default_config.length_cap_points (3 * 24) = 60
    ∧ char_class_count char_signed (bytes "MyTree-Dog-Love-Jump2044") = 4
    ∧ pattern_sum char_signed (bytes "MyTree-Dog-Love-Jump2044") = 8
    ∧ (60 : Int) + 10 - min default_config.pattern_points 8 + default_config.passphrase_points
        = 72 := by
  have hlow : to_lower (bytes "MyTree-Dog-Love-Jump2044") = bytes "mytree-dog-love-jump2044" := by
    decide
  have e := score_password_congr char_signed (bytes "MyTree-Dog-Love-Jump2044")
    blocklist [] dictionary [] default_config
    (by rw [hlow]; simp [hb]) (by rw [hlow]; simp [hd])
  rw [e]
  cases char_signed <;> decide

/-! ## A year is a keyboard pattern -/

theorem win4_mono {α : Type} (p q : α → α → α → α → Bool)
    (hpq : ∀ a b c d, p a b c d = true → q a b c d = true) (l : List α)
    (h : win4 p l = true) : win4 q l = true := by
  obtain ⟨i, hi, hp⟩ := (win4_iff p l).mp h
  exact (win4_iff q l).mpr ⟨i, hi, hpq _ _ _ _ hp⟩

theorem win4_map {α β : Type} (f : α → β) (p : α → α → α → α → Bool)
    (q : β → β → β → β → Bool)
    (hpq : ∀ a b c d, p a b c d = true → q (f a) (f b) (f c) (f d) = true) (l : List α)
    (h : win4 p l = true) : win4 q (l.map f) = true := by
  obtain ⟨i, hi, hp⟩ := (win4_iff p l).mp h
  refine (win4_iff q (l.map f)).mpr ⟨i, by simpa using hi, ?_⟩
  simpa [List.getElem_map] using hpq _ _ _ _ hp

theorem tolower_digit (c : Byte) (h : isdigit c = true) :
    tolower c = c ∧ isdigit (tolower c) = true := by
  have hu : isupper c = false := by
    simp only [isdigit, isupper, Bool.and_eq_true, decide_eq_true_eq] at h ⊢
    rw [Bool.eq_false_iff]; simp only [ne_eq, Bool.and_eq_true, decide_eq_true_eq]; omega
  have e : tolower c = c := by simp [tolower, hu]
  exact ⟨e, by rw [e]; exact h⟩

theorem digit_in_row : ∀ c : Byte, isdigit c = true → c ∈ bytes "1234567890" := by
  set_option maxRecDepth 100000 in decide

theorem all_digits_tolower (a b c d : Byte) (h : all_digits a b c d = true) :
    all_digits (tolower a) (tolower b) (tolower c) (tolower d) = true := by
  simp only [all_digits, Bool.and_eq_true] at h ⊢
  obtain ⟨⟨⟨ha, hb⟩, hc⟩, hd⟩ := h
  exact ⟨⟨⟨(tolower_digit a ha).2, (tolower_digit b hb).2⟩, (tolower_digit c hc).2⟩,
    (tolower_digit d hd).2⟩

/-- Four consecutive digits in the lowercased string fire the second loop of the
keyboard-walk detector on the row "1234567890". -/
theorem keyboard_walk_of_digits (t : Str) (h : win4 all_digits (to_lower t) = true) :
    looks_like_keyboard_walk t = true := by
  have hrow : win4 (in_row (bytes "1234567890")) (to_lower t) = true := by
    refine win4_mono all_digits _ ?_ _ h
    intro a b c d habcd
    simp only [all_digits, Bool.and_eq_true] at habcd
    obtain ⟨⟨⟨ha, hb⟩, hc⟩, hd⟩ := habcd
    simp only [in_row, Bool.and_eq_true, decide_eq_true_eq]
    exact ⟨⟨⟨digit_in_row a ha, digit_in_row b hb⟩, digit_in_row c hc⟩, digit_in_row d hd⟩
  unfold looks_like_keyboard_walk
  simp only [Bool.or_eq_true, List.any_eq_true]
  right
  refine ⟨bytes "1234567890", by simp [rows], ?_⟩
  rw [(row_scan_win4 _ _).1]
  exact hrow

theorem year_all_digits (s : Str) (h : contains_year_suffix s = true) :
    win4 all_digits (to_lower s) = true ∧ win4 all_digits (to_lower (to_lower s)) = true := by
  rw [contains_year_suffix_eq] at h
  have h0 : win4 all_digits s = true := by
    refine win4_mono year4 _ ?_ _ h
    intro a b c d hy
    simp only [year4, Bool.and_eq_true] at hy
    simp only [all_digits, Bool.and_eq_true]
    exact hy.1
  have h1 : win4 all_digits (to_lower s) = true :=
    win4_map tolower all_digits all_digits all_digits_tolower s h0
  exact ⟨h1, win4_map tolower all_digits all_digits all_digits_tolower (to_lower s) h1⟩

/-- C20: `contains_year_suffix s` implies `looks_like_keyboard_walk s` and
`looks_like_keyboard_walk (to_lower s)`, four consecutive digits being four
consecutive members of the row "1234567890"; so in `score_password` the year
reason never appears without the keyboard-pattern reason, and when the year
penalty fires the uncapped pattern deduction is at least 8. -/
theorem C20_year_implies_keyboard_walk (char_signed : Bool) (s : Str)
    (blocklist dictionary : List Str) (cfg : ScoreConfig) :
    (contains_year_suffix s = true →
        looks_like_keyboard_walk s = true ∧ looks_like_keyboard_walk (to_lower s) = true)
    ∧ ("Contains a year (predictable)."
          ∈ (score_password char_signed s blocklist dictionary cfg).reasons →
        "Contains a keyboard pattern."
          ∈ (score_password char_signed s blocklist dictionary cfg).reasons)
    ∧ (contains_year_suffix s = true → 8 ≤ pattern_sum char_signed s) := by
  have part1 : contains_year_suffix s = true →
      looks_like_keyboard_walk s = true ∧ looks_like_keyboard_walk (to_lower s) = true := by
    intro hy
    obtain ⟨h1, h2⟩ := year_all_digits s hy
    exact ⟨keyboard_walk_of_digits s h1, keyboard_walk_of_digits (to_lower s) h2⟩
  refine ⟨part1, ?_, ?_⟩
  · by_cases hs : s = []
    · subst hs
      intro hmem
      simp [score_password] at hmem
    · rw [score_password_reasons char_signed s blocklist dictionary cfg hs]
      simp only [List.mem_append, mem_msg_if]
      have t1 : "Contains a year (predictable)." ≠ "Password exceeds maximum allowed length." := by
        decide
      have t2 : "Contains a year (predictable)." ≠ "Found in common-passwords list." := by decide
      have t3 : "Contains a year (predictable)." ≠ "Is a common dictionary word." := by decide
      have t4 : "Contains a year (predictable)."
          ≠ "Contains an increasing/decreasing sequence." := by decide
      have t5 : "Contains a year (predictable)." ≠ "Contains a keyboard pattern." := by decide
      have t6 : "Contains a year (predictable)." ≠ "Contains repeated chunks." := by decide
      have t8 : "Contains a year (predictable)."
          ≠ "Looks like a multi-word passphrase (good)." := by decide
      have t9 : "Contains a year (predictable)."
          ≠ "Shorter than recommended minimum length." := by decide
      have t10 : "Contains a year (predictable)." ≠ tip := by decide
      intro hmem
      have hy : contains_year_suffix s = true := by
        rcases hmem with (((((((((⟨-, e⟩ | ⟨-, e⟩) | ⟨-, e⟩) | ⟨-, e⟩) | ⟨-, e⟩) | ⟨-, e⟩)
          | ⟨hy, -⟩) | ⟨-, e⟩) | ⟨-, e⟩) | ⟨-, e⟩)
        · exact absurd e t1
        · exact absurd e t2
        · exact absurd e t3
        · exact absurd e t4
        · exact absurd e t5
        · exact absurd e t6
        · exact hy
        · exact absurd e t8
        · exact absurd e t9
        · exact absurd e t10
      exact Or.inl (Or.inl (Or.inl (Or.inl (Or.inl (Or.inr ⟨(part1 hy).2, trivial⟩)))))
  · intro hy
    have hk := (part1 hy).2
    have h1 := ind_range (looks_like_sequence char_signed (to_lower s))
    have h3 := ind_range (looks_like_repeated_chunk (to_lower s))
    unfold pattern_sum
    rw [hy, hk]
    simp only [ind, if_true]
    omega

/-! ## The top of the scale -/

/-- The tab character lies outside 32..126, and the string made of one tab has
class count 1, not 0: `std::isspace` holds for it. -/
theorem C17_tab_counts_as_a_class :
    ((9 : Byte).val < 32 ∨ 126 < (9 : Byte).val)
      ∧ char_class_count true [(9 : Byte)] = 1
      ∧ char_class_count false [(9 : Byte)] = 1
      ∧ char_class_count true [(9 : Byte)] ≠ 0 := by
  decide

/-- C17, amended: characters outside printable ASCII 32..126 other than the
whitespace controls 9..13 (tab, newline, vertical tab, form feed, carriage
return) contribute to no character class; a string made only of such characters
has class count 0.  Each of the whitespace controls 9..13 counts for one class. -/
theorem C17_outside_printable_no_class (char_signed : Bool) (s : Str)
    (h : ∀ c ∈ s, (c.val < 32 ∨ 126 < c.val) ∧ ¬ (9 ≤ c.val ∧ c.val ≤ 13)) :
    char_class_count char_signed s = 0
      ∧ (∀ c : Byte, 9 ≤ c.val → c.val ≤ 13 → char_class_count char_signed [c] = 1) := by
  refine ⟨?_, ?_⟩
  swap
  · intro c h9 h13
    rw [char_class_count_eq]
    have e1 : [c].any islower = false := by
      simp only [List.any_cons, List.any_nil, Bool.or_false, islower]
      rw [Bool.eq_false_iff]; simp only [ne_eq, Bool.and_eq_true, decide_eq_true_eq]; omega
    have e2 : [c].any isupper = false := by
      simp only [List.any_cons, List.any_nil, Bool.or_false, isupper]
      rw [Bool.eq_false_iff]; simp only [ne_eq, Bool.and_eq_true, decide_eq_true_eq]; omega
    have e3 : [c].any isdigit = false := by
      simp only [List.any_cons, List.any_nil, Bool.or_false, isdigit]
      rw [Bool.eq_false_iff]; simp only [ne_eq, Bool.and_eq_true, decide_eq_true_eq]; omega
    have e4 : [c].any space_or_symbol = true := by
      simp only [List.any_cons, List.any_nil, Bool.or_false, space_or_symbol, isspace,
        Bool.or_eq_true, Bool.and_eq_true, decide_eq_true_eq]
      exact Or.inl (Or.inr ⟨h9, h13⟩)
    rw [e1, e2, e3, e4]
    rfl
  rw [char_class_count_eq]
  have e1 : s.any islower = false := by
    rw [List.any_eq_false]
    intro c hc
    have := h c hc
    simp only [islower, Bool.and_eq_true, decide_eq_true_eq]
    omega
  have e2 : s.any isupper = false := by
    rw [List.any_eq_false]
    intro c hc
    have := h c hc
    simp only [isupper, Bool.and_eq_true, decide_eq_true_eq]
    omega
  have e3 : s.any isdigit = false := by
    rw [List.any_eq_false]
    intro c hc
    have := h c hc
    simp only [isdigit, Bool.and_eq_true, decide_eq_true_eq]
    omega
  have e4 : s.any space_or_symbol = false := by
    rw [List.any_eq_false]
    intro c hc
    have := h c hc
    simp only [space_or_symbol, isspace, Bool.or_eq_true, Bool.and_eq_true, decide_eq_true_eq]
    omega
  rw [e1, e2, e3, e4]
  rfl

/-- The class count of the string made of a NUL, a DEL and the byte 200 is 0. -/
theorem C17_outside_printable_no_class_witness :
    (∀ c ∈ ([0, 127, 200] : Str), (c.val < 32 ∨ 126 < c.val) ∧ ¬ (9 ≤ c.val ∧ c.val ≤ 13))
      ∧ char_class_count true ([0, 127, 200] : Str) = 0 :=
  ⟨by set_option maxRecDepth 10000 in decide,
    (C17_outside_printable_no_class true [0, 127, 200]
      (by set_option maxRecDepth 10000 in decide)).1⟩

/-! ## Rounding of the variety bonus -/

/-- The floor is not what the source computes for a negative `variety_points`:
with `variety_points = -1` and the password "aZbYcXdW" (two classes, no pattern,
no bonus, no guard) the score is 24, the base score, where the formula with the
floor gives 23.  Nor is it what the source computes when the product overflows:
with `variety_points = 1000000000` and "Tr0ub4dor&3" (four classes) the product
wraps, the bonus added is negative and the score is 0. -/
theorem C18_floor_fails_for_negative_variety_points :
    (score_password true (bytes "aZbYcXdW") [] [] negative_variety_config).score = 24
      ∧ char_class_count true (bytes "aZbYcXdW") = 2
      ∧ pattern_sum true (bytes "aZbYcXdW") = 0
      ∧ min negative_variety_config.length_cap_points (3 * 8) = 24
      ∧ ⌊((negative_variety_config.variety_points
              * max 0 (char_class_count true (bytes "aZbYcXdW") - 1) : Int) : ℚ) / 3⌋ = -1
      ∧ spec_score negative_variety_config (bytes "aZbYcXdW").length
          ⌊((negative_variety_config.variety_points
              * max 0 (char_class_count true (bytes "aZbYcXdW") - 1) : Int) : ℚ) / 3⌋
          (pattern_sum true (bytes "aZbYcXdW")) false false = 23
      ∧ (score_password true (bytes "aZbYcXdW") [] [] negative_variety_config).score
          ≠ spec_score negative_variety_config (bytes "aZbYcXdW").length
              ⌊((negative_variety_config.variety_points
                  * max 0 (char_class_count true (bytes "aZbYcXdW") - 1) : Int) : ℚ) / 3⌋
              (pattern_sum true (bytes "aZbYcXdW")) false false
      ∧ (score_password true (bytes "Tr0ub4dor&3") [] [] large_variety_config).score = 0
      ∧ char_class_count true (bytes "Tr0ub4dor&3") = 4
      ∧ wrap32 (large_variety_config.variety_points
            * max 0 (char_class_count true (bytes "Tr0ub4dor&3") - 1)) = -1294967296
      ∧ no_overflow true (bytes "Tr0ub4dor&3") large_variety_config = false := by
  rw [floor_div_three]
  decide

/-- C18, amended: for every configuration (any `variety_points`, negative ones
included) and every non-empty password with class count `c` for which no `int`
operation of the computation overflows, the variety bonus that `score_password`
adds to the base score is the exact quotient
`variety_points * max 0 (c - 1) / 3` rounded towards zero; that is its floor
when `variety_points ≥ 0` and its ceiling when `variety_points ≤ 0`; under the
default configuration it is 0, 3, 6, 10 for `c = 1, 2, 3, 4`. -/
theorem C18_variety_bonus_rounds_to_zero (char_signed : Bool) (pw : Str)
    (blocklist dictionary : List Str) (cfg : ScoreConfig) (h : pw ≠ [])
    (hr : no_overflow char_signed pw cfg = true) :
    (score_password char_signed pw blocklist dictionary cfg).score
      = spec_score cfg pw.length
          (Int.tdiv (cfg.variety_points * max 0 (char_class_count char_signed pw - 1)) 3)
          (pattern_sum char_signed pw)
          (decide (3 ≤ separators pw + 1) && decide (16 ≤ pw.length))
          ((score_password char_signed pw blocklist dictionary cfg).blocklist_hit
            || (score_password char_signed pw blocklist dictionary cfg).dictionary_hit)
    ∧ (0 ≤ cfg.variety_points →
        Int.tdiv (cfg.variety_points * max 0 (char_class_count char_signed pw - 1)) 3
          = ⌊((cfg.variety_points * max 0 (char_class_count char_signed pw - 1) : Int) : ℚ) / 3⌋)
    ∧ (cfg.variety_points ≤ 0 →
        Int.tdiv (cfg.variety_points * max 0 (char_class_count char_signed pw - 1)) 3
          = ⌈((cfg.variety_points * max 0 (char_class_count char_signed pw - 1) : Int) : ℚ) / 3⌉)
    ∧ Int.tdiv (default_config.variety_points * max 0 (1 - 1)) 3 = 0
    ∧ Int.tdiv (default_config.variety_points * max 0 (2 - 1)) 3 = 3
    ∧ Int.tdiv (default_config.variety_points * max 0 (3 - 1)) 3 = 6
    ∧ Int.tdiv (default_config.variety_points * max 0 (4 - 1)) 3 = 10 := by
  obtain ⟨s3, hb, hd, -, -⟩ := score_password_shape char_signed pw blocklist dictionary cfg h
  have h10 : decide ((pw.length : Int) ≤ 10) = decide (pw.length ≤ 10) := by
    rw [Bool.eq_iff_iff]
    simp only [decide_eq_true_eq]
    omega
  have hsum : sums_in_range char_signed pw cfg = true := by
    simp only [no_overflow, Bool.and_eq_true] at hr
    exact hr.2
  refine ⟨?_, ?_, ?_, by decide, by decide, by decide, by decide⟩
  · rw [hb, hd, h10, score_password_score char_signed pw blocklist dictionary cfg h hsum]
    rfl
  · intro hv
    exact tdiv_three_of_nonneg (mul_nonneg hv (le_max_left _ _))
  · intro hv
    exact tdiv_three_of_nonpos (mul_nonpos_of_nonpos_of_nonneg hv (le_max_left _ _))

/-- The score of "aZbYcXdW" with `variety_points = -1`, by the formula with the quotient
rounded towards zero. -/
theorem C18_variety_bonus_rounds_to_zero_witness :
    (bytes "aZbYcXdW" ≠ [] ∧ no_overflow true (bytes "aZbYcXdW") negative_variety_config = true)
      ∧ (score_password true (bytes "aZbYcXdW") [] [] negative_variety_config).score
          = spec_score negative_variety_config (bytes "aZbYcXdW").length
              (Int.tdiv (negative_variety_config.variety_points
                * max 0 (char_class_count true (bytes "aZbYcXdW") - 1)) 3)
              (pattern_sum true (bytes "aZbYcXdW"))
              (decide (3 ≤ separators (bytes "aZbYcXdW") + 1)
                && decide (16 ≤ (bytes "aZbYcXdW").length))
              ((score_password true (bytes "aZbYcXdW") [] [] negative_variety_config).blocklist_hit
                || (score_password true (bytes "aZbYcXdW") [] []
                      negative_variety_config).dictionary_hit) :=
  ⟨⟨by decide, by decide⟩,
    (C18_variety_bonus_rounds_to_zero true (bytes "aZbYcXdW") [] [] negative_variety_config
      (by decide) (by decide)).1⟩

/-! ## Agreement of the bounds-checked embedding -/

/-- The score formula at the password "Tr0ub4dor&3", with empty sets and the default
configuration. -/
theorem C11_score_formula_witness :
    (0 ≤ default_config.variety_points ∧ bytes "Tr0ub4dor&3" ≠ []
        ∧ no_overflow true (bytes "Tr0ub4dor&3") default_config = true)
      ∧ (score_password true (bytes "Tr0ub4dor&3") [] [] default_config).score
          = spec_score default_config (bytes "Tr0ub4dor&3").length
              ⌊((default_config.variety_points
                  * max 0 (char_class_count true (bytes "Tr0ub4dor&3") - 1) : Int) : ℚ) / 3⌋
              (pattern_sum true (bytes "Tr0ub4dor&3"))
              (decide (3 ≤ separators (bytes "Tr0ub4dor&3") + 1)
                && decide (16 ≤ (bytes "Tr0ub4dor&3").length))
              ((score_password true (bytes "Tr0ub4dor&3") [] [] default_config).blocklist_hit
                || (score_password true (bytes "Tr0ub4dor&3") [] []
                      default_config).dictionary_hit) :=
  ⟨⟨by decide, by decide, by decide⟩,
    C11_score_formula true (bytes "Tr0ub4dor&3") [] [] default_config (by decide) (by decide)
      (by decide)⟩

/-- The place of the tip at the seven-character password "aB3$xY!": its category is Weak
and the tip is its last reason. -/
theorem C12_reasons_in_order_witness :
    bytes "aB3$xY!" ≠ []
      ∧ ((score_password true (bytes "aB3$xY!") [] [] default_config).reasons.getLast?
            = some "Try 3–4 uncommon words, avoid years/keyboard runs, and steer clear of known common passwords."
          ↔ ((score_password true (bytes "aB3$xY!") [] [] default_config).bucket = Bucket.Weak
              ∨ (score_password true (bytes "aB3$xY!") [] [] default_config).bucket
                  = Bucket.Fair)) :=
  ⟨by decide,
    (C12_reasons_in_order true (bytes "aB3$xY!") [] [] default_config (by decide)).2.1⟩

/-- The passphrase example with the sample sets of the graphical shell. -/
theorem C14_passphrase_with_year_witness :
    (bytes "mytree-dog-love-jump2044" ∉ [bytes "password", bytes "123456", bytes "qwerty"]
        ∧ bytes "mytree-dog-love-jump2044"
            ∉ [bytes "cat", bytes "dog", bytes "tree", bytes "love"])
      ∧ score_password true (bytes "MyTree-Dog-Love-Jump2044")
            [bytes "password", bytes "123456", bytes "qwerty"]
            [bytes "cat", bytes "dog", bytes "tree", bytes "love"] default_config
          = { score := 72, bucket := Bucket.Strong,
              reasons := ["Contains a keyboard pattern.", "Contains a year (predictable).",
                "Looks like a multi-word passphrase (good)."],
              blocklist_hit := false, dictionary_hit := false } :=
  ⟨⟨by decide, by decide⟩,
    (C14_passphrase_with_year true [bytes "password", bytes "123456", bytes "qwerty"]
      [bytes "cat", bytes "dog", bytes "tree", bytes "love"] (by decide) (by decide)).1⟩

/-- Two pairs of sets that agree on "dog" give the same result for "Dog". -/
theorem C15_depends_on_membership_only_witness :
    ((to_lower (bytes "Dog") ∈ [bytes "password"] ↔ to_lower (bytes "Dog") ∈ ([] : List Str))
        ∧ (to_lower (bytes "Dog") ∈ [bytes "dog"]
            ↔ to_lower (bytes "Dog") ∈ [bytes "cat", bytes "dog"]))
      ∧ score_password true (bytes "Dog") [bytes "password"] [bytes "dog"] default_config
          = score_password true (bytes "Dog") [] [bytes "cat", bytes "dog"] default_config :=
  ⟨⟨by decide, by decide⟩,
    (C15_depends_on_membership_only true (bytes "Dog") [bytes "password"] [] [bytes "dog"]
      [bytes "cat", bytes "dog"] default_config (by decide) (by decide)).1⟩

/-- The year in "Born1999" is a keyboard pattern. -/
theorem C20_year_implies_keyboard_walk_witness :
    contains_year_suffix (bytes "Born1999") = true
      ∧ (looks_like_keyboard_walk (bytes "Born1999") = true
        ∧ looks_like_keyboard_walk (to_lower (bytes "Born1999")) = true) :=
  ⟨by decide,
    (C20_year_implies_keyboard_walk true (bytes "Born1999") [] [] default_config).1 (by decide)⟩

end pwcheck
